import Mathlib

/-!
Verification of the Vast-Unwrapper repository (a server-side VAST wrapper
resolving proxy written in JavaScript) against its natural-language
specification.

The JavaScript sources are shallowly embedded:

* JavaScript runtime values that flow through the resolver (the trees
  produced by the external `fast-xml-parser` library, OpenRTB bid objects,
  tracking entries, ...) are modelled by the inductive type `JVal`
  (null/undefined, booleans, numbers, strings, arrays, objects).  The code
  under scrutiny never distinguishes `null` from `undefined` (it only ever
  tests them through `?.`, `||` and `!`), so both are modelled by
  `JVal.null1`.
* External capabilities (network fetch + XML parse, XML serialisation,
  `JSON.parse`, the WHATWG `URL` constructor, `node:dns`, `net.isIP`,
  base64 decoding) are taken as explicit function parameters (oracles);
  the functions of the repository are embedded as total Lean functions of
  those oracles.  Fetches are additionally recorded in an explicit trace so
  that "no request is issued" claims become statements about the trace.
* In-place mutation of parser trees (`node.field = v`) is modelled by
  functional update; the trees coming out of the XML parser are proper
  trees (no aliasing between distinct nodes), where the source mutates a
  node obtained through a fallback chain the embedding updates the value
  along the same access path.  Property assignment on a primitive (a
  `TypeError` in the strict-mode source) is outside the modelled domain and
  is embedded as a no-op; no theorem below exercises that corner.
* JavaScript 32-bit signed integer semantics of `<<`, `|`, `&` (used by the
  private-address classifier) are embedded exactly, as `Int` arithmetic
  with explicit reduction modulo 2^32 and signed reinterpretation.
-/

/-- Model of a JavaScript runtime value as it occurs in this code base.
`null1` stands for both `null` and `undefined` (the sources only observe
them through truthiness and optional chaining, which treat them alike). -/
inductive JVal where
  | null1
  | bool (b : Bool)
  | num (n : Int)
  | str (s : String)
  | arr (xs : List JVal)
  | obj (fs : List (String × JVal))

mutual

/-- Structural (SameValueZero-style) equality test on `JVal`.  The dedup
sets in the source only ever hold primitive keys (strings), for which
JavaScript `Set` membership coincides with structural equality. -/
def jeq : JVal → JVal → Bool
  | .null1, .null1 => true
  | .bool a, .bool b => a == b
  | .num a, .num b => a == b
  | .str a, .str b => a == b
  | .arr xs, .arr ys => jeqList xs ys
  | .obj fs, .obj gs => jeqFields fs gs
  | _, _ => false

/-- Pointwise `jeq` on lists of values. -/
def jeqList : List JVal → List JVal → Bool
  | [], [] => true
  | x :: xs, y :: ys => jeq x y && jeqList xs ys
  | _, _ => false

/-- Pointwise `jeq` on object field lists. -/
def jeqFields : List (String × JVal) → List (String × JVal) → Bool
  | [], [] => true
  | (k, v) :: fs, (l, w) :: gs => k == l && jeq v w && jeqFields fs gs
  | _, _ => false

end

mutual

theorem jeq_iff : ∀ (a b : JVal), jeq a b = true ↔ a = b
  | .null1, .null1 => by simp [jeq]
  | .bool a, .bool b => by simp [jeq]
  | .num a, .num b => by simp [jeq]
  | .str a, .str b => by simp [jeq]
  | .arr xs, .arr ys => by
      simp only [jeq, jeqList_iff xs ys]
      constructor
      · intro h; rw [h]
      · intro h; cases h; rfl
  | .obj fs, .obj gs => by
      simp only [jeq, jeqFields_iff fs gs]
      constructor
      · intro h; rw [h]
      · intro h; cases h; rfl
  | .null1, .bool _ => by simp [jeq]
  | .null1, .num _ => by simp [jeq]
  | .null1, .str _ => by simp [jeq]
  | .null1, .arr _ => by simp [jeq]
  | .null1, .obj _ => by simp [jeq]
  | .bool _, .null1 => by simp [jeq]
  | .bool _, .num _ => by simp [jeq]
  | .bool _, .str _ => by simp [jeq]
  | .bool _, .arr _ => by simp [jeq]
  | .bool _, .obj _ => by simp [jeq]
  | .num _, .null1 => by simp [jeq]
  | .num _, .bool _ => by simp [jeq]
  | .num _, .str _ => by simp [jeq]
  | .num _, .arr _ => by simp [jeq]
  | .num _, .obj _ => by simp [jeq]
  | .str _, .null1 => by simp [jeq]
  | .str _, .bool _ => by simp [jeq]
  | .str _, .num _ => by simp [jeq]
  | .str _, .arr _ => by simp [jeq]
  | .str _, .obj _ => by simp [jeq]
  | .arr _, .null1 => by simp [jeq]
  | .arr _, .bool _ => by simp [jeq]
  | .arr _, .num _ => by simp [jeq]
  | .arr _, .str _ => by simp [jeq]
  | .arr _, .obj _ => by simp [jeq]
  | .obj _, .null1 => by simp [jeq]
  | .obj _, .bool _ => by simp [jeq]
  | .obj _, .num _ => by simp [jeq]
  | .obj _, .str _ => by simp [jeq]
  | .obj _, .arr _ => by simp [jeq]

theorem jeqList_iff : ∀ (xs ys : List JVal), jeqList xs ys = true ↔ xs = ys
  | [], [] => by simp [jeqList]
  | x :: xs, y :: ys => by
      simp only [jeqList, Bool.and_eq_true, jeq_iff x y, jeqList_iff xs ys]
      constructor
      · rintro ⟨h1, h2⟩; rw [h1, h2]
      · intro h; cases h; exact ⟨rfl, rfl⟩
  | [], _ :: _ => by simp [jeqList]
  | _ :: _, [] => by simp [jeqList]

theorem jeqFields_iff : ∀ (fs gs : List (String × JVal)), jeqFields fs gs = true ↔ fs = gs
  | [], [] => by simp [jeqFields]
  | (k, v) :: fs, (l, w) :: gs => by
      simp only [jeqFields, Bool.and_eq_true, jeq_iff v w, jeqFields_iff fs gs, beq_iff_eq]
      constructor
      · rintro ⟨⟨h1, h2⟩, h3⟩; rw [h1, h2, h3]
      · intro h; cases h; exact ⟨⟨rfl, rfl⟩, rfl⟩
  | [], _ :: _ => by simp [jeqFields]
  | _ :: _, [] => by simp [jeqFields]

end

instance : DecidableEq JVal := fun a b => decidable_of_iff (jeq a b = true) (jeq_iff a b)

/-- JavaScript truthiness.  Empty arrays and empty objects are truthy. -/
def truthy : JVal → Bool
  | .null1 => false
  | .bool b => b
  | .num n => n != 0
  | .str s => s != ""
  | .arr _ => true
  | .obj _ => true

/-- The JavaScript `a || b` operator on values. -/
def jsOr (a b : JVal) : JVal := if truthy a then a else b

/-- Property read `v.k` / `v?.k`.  Reads on `null`/`undefined` and on
primitives yield `undefined` (no string/array properties are read by name
anywhere in the embedded code). -/
def getF (v : JVal) (k : String) : JVal :=
  match v with
  | .obj fs =>
      match fs.find? (fun p => p.1 == k) with
      | some p => p.2
      | none => .null1
  | _ => .null1

/-- Index read `v[0]` / `v?.[0]` as used by the fallback chains of the
resolver: head of an array, the "0" property of an object, the first
character of a string, `undefined` otherwise. -/
def idx0 (v : JVal) : JVal :=
  match v with
  | .arr (x :: _) => x
  | .arr [] => .null1
  | .obj _ => getF v "0"
  | .str s =>
      match s.data with
      | [] => .null1
      | c :: _ => .str (String.mk [c])
  | _ => .null1

/-- Index read `xs[0]` on a value already known to be a JavaScript array
(the result of `toArr` below). -/
def nth0 (xs : List JVal) : JVal :=
  match xs with
  | [] => .null1
  | x :: _ => x

/-- Update (or append) a key in an object field list; an existing key keeps
its position, as JavaScript property assignment does. -/
def setAssoc : List (String × JVal) → String → JVal → List (String × JVal)
  | [], k, x => [(k, x)]
  | (l, w) :: fs, k, x => if l == k then (k, x) :: fs else (l, w) :: setAssoc fs k x

/-- Property write `v.k = x`, modelled functionally.  Writing a property of
a primitive throws in the strict-mode source and is outside the modelled
domain (embedded as a no-op); no theorem relies on that corner. -/
def setField (v : JVal) (k : String) (x : JVal) : JVal :=
  match v with
  | .obj fs => .obj (setAssoc fs k x)
  | _ => v

/-- Remove a key from an object (used only to state that a merge ignores a
given field of its input). -/
def removeField (v : JVal) (k : String) : JVal :=
  match v with
  | .obj fs => .obj (fs.filter (fun p => p.1 != k))
  | _ => v

/-- Object spread `..v` inside an object literal: fields of an object,
index/character entries of arrays and strings, nothing for primitives. -/
def jsSpreadObj (v : JVal) : List (String × JVal) :=
  match v with
  | .obj fs => fs
  | .arr xs => (xs.enum).map (fun p => (toString p.1, p.2))
  | .str s => (s.data.enum).map (fun p => (toString p.1, .str (String.mk [p.2])))
  | _ => []

/-- An object literal `\x7b ..spread, k1: v1, ... \x7d`: spread first, then
the listed keys assigned in order. -/
def objLit (spread : JVal) (kvs : List (String × JVal)) : JVal :=
  kvs.foldl (fun o kv => setField o kv.1 kv.2) (.obj (jsSpreadObj spread))

/-- The resolver's `toArr`: `Array.isArray(v) ? v : v ? [v] : []`. -/
def toArr (v : JVal) : List JVal :=
  match v with
  | .arr xs => xs
  | _ => if truthy v then [v] else []

mutual

/-- JavaScript string coercion (template literals): `undefined` prints as
"undefined", objects as "[object Object]", arrays join their elements with
commas (null/undefined elements joining as empty). -/
def toStr : JVal → String
  | .null1 => "undefined"
  | .bool b => if b then "true" else "false"
  | .num n => toString n
  | .str s => s
  | .arr xs => toStrJoin xs
  | .obj _ => "[object Object]"

/-- `Array.prototype.join(",")` element printing. -/
def toStrJoin : List JVal → String
  | [] => ""
  | [x] =>
      match x with
      | .null1 => ""
      | v => toStr v
  | x :: y :: xs =>
      (match x with
       | .null1 => ""
       | v => toStr v) ++ "," ++ toStrJoin (y :: xs)

end

/-- Minimal JSON string escaping (quote and backslash); sufficient for the
URL-bearing strings this code deduplicates. -/
def jsonEscape (s : String) : String :=
  s.data.foldl
    (fun acc c =>
      acc ++ (if c == '"' then "\\\"" else if c == '\\' then "\\\\" else String.mk [c]))
    ""

mutual

/-- `JSON.stringify` as used for dedup keys.  The embedded code only
stringifies parser-tree values (strings, numbers, objects, arrays); the
null/undefined conflation prints as "null" here. -/
def jsonStringify : JVal → String
  | .null1 => "null"
  | .bool b => if b then "true" else "false"
  | .num n => toString n
  | .str s => "\"" ++ jsonEscape s ++ "\""
  | .arr xs => "[" ++ jsonArr xs ++ "]"
  | .obj fs => "\x7b" ++ jsonObj fs ++ "\x7d"

/-- Array element serialisation for `jsonStringify`. -/
def jsonArr : List JVal → String
  | [] => ""
  | [x] => jsonStringify x
  | x :: y :: xs => jsonStringify x ++ "," ++ jsonArr (y :: xs)

/-- Object field serialisation for `jsonStringify`. -/
def jsonObj : List (String × JVal) → String
  | [] => ""
  | [(k, v)] => "\"" ++ jsonEscape k ++ "\":" ++ jsonStringify v
  | (k, v) :: p :: fs => "\"" ++ jsonEscape k ++ "\":" ++ jsonStringify v ++ "," ++ jsonObj (p :: fs)

end

/-- Is this value a JavaScript string (`typeof v === "string"`)? -/
def isStrJ : JVal → Bool
  | .str _ => true
  | _ => false

/-- The underlying string of a value already known to be a string. -/
def strOf : JVal → String
  | .str s => s
  | _ => ""

/-- Is `pat` a prefix of `l`? -/
def pfxChars : List Char → List Char → Bool
  | [], _ => true
  | _ :: _, [] => false
  | a :: as, b :: bs => a == b && pfxChars as bs

/-- Is `pat` a contiguous substring of `l`? -/
def midChars (pat : List Char) : List Char → Bool
  | [] => pfxChars pat []
  | b :: bs => pfxChars pat (b :: bs) || midChars pat bs

/-- `String.prototype.includes` of JavaScript. -/
def strIncludes (s pat : String) : Bool := midChars pat.data s.data

/-!
Embedding of `src/lib/resolver.mjs` (the current resolver).

Environment-derived constants (`MAX_DEPTH`, `IMP_DEDUP`) are passed as
parameters; their source defaults are `MAX_DEPTH = 8` and
`IMP_DEDUP = false`.  `fetch` followed by `parser.parse` is modelled by a
single oracle `net : String → JVal` mapping a URL to the parsed document
(both `fetch` and the XML parse are external capabilities); the XML
serialiser `builder.build` is an oracle `build : JVal → String`.  The TTL
cache is modelled by its point-in-time lookup function
`cache : String → Option String` (an entry that would be expired at read
time is a `none`); the write-back `cacheSet` has no bearing on any claim
below and is not modelled.
-/

/-- Source default of the `MAX_DEPTH` environment option. -/
def MAX_DEPTH : Nat := 8

/-- `getAd` of the resolver: `doc?.VAST?.Ad?.[0] || doc?.VAST?.Ad || null`. -/
def getAd (doc : JVal) : JVal :=
  jsOr (idx0 (getF (getF doc "VAST") "Ad")) (jsOr (getF (getF doc "VAST") "Ad") .null1)

/-- `getInline` of the resolver: `ad?.InLine?.[0] || ad?.InLine || null`. -/
def getInline (doc : JVal) : JVal :=
  jsOr (idx0 (getF (getAd doc) "InLine")) (jsOr (getF (getAd doc) "InLine") .null1)

/-- `getWrapper` of the resolver: `ad?.Wrapper?.[0] || ad?.Wrapper || null`. -/
def getWrapper (doc : JVal) : JVal :=
  jsOr (idx0 (getF (getAd doc) "Wrapper")) (jsOr (getF (getAd doc) "Wrapper") .null1)

/-- `getVastAdTagUri` of the resolver: the wrapper's `VASTAdTagURI`, taken
verbatim when it is a string and through its `#text` member otherwise;
`null` when absent/falsy. -/
def getVastAdTagUri (doc : JVal) : JVal :=
  let w := getWrapper doc
  if ¬ truthy w then .null1
  else
    let tag := getF w "VASTAdTagURI"
    if ¬ truthy tag then .null1
    else
      match tag with
      | .str _ => tag
      | _ => jsOr (getF tag "#text") .null1

/-- One step of the `mergeUnique` accumulation: state is (keys seen, output
so far); a new element is appended when its key was not seen. -/
def mergeUniqueStep (keyFn : JVal → JVal) (st : List JVal × List JVal) (it : JVal) :
    List JVal × List JVal :=
  let k := keyFn it
  if k ∈ st.1 then st else (k :: st.1, st.2 ++ [it])

/-- `mergeUnique(a, b, keyFn)` of the resolver: first occurrence per key
over `[..a, ..b]`, in order; the key defaults to `JSON.stringify` when no
key function is supplied. -/
def mergeUnique (a b : List JVal) (keyFn : Option (JVal → JVal)) : List JVal :=
  let f := fun it => match keyFn with | some g => g it | none => .str (jsonStringify it)
  ((a ++ b).foldl (mergeUniqueStep f) ([], [])).2

/-- Dedup key of the TrackingEvents merge:
the template literal `${t?.event}|${t?.["#text"] || t}`. -/
def trkKey (t : JVal) : JVal :=
  .str (toStr (getF t "event") ++ "|" ++ toStr (jsOr (getF t "#text") t))

/-- Dedup key of the AdVerifications merge: `JSON.stringify(v)`. -/
def verKey (v : JVal) : JVal := .str (jsonStringify v)

/-- Dedup key of the ViewableImpression merges:
`typeof v === "string" ? v : v?.["#text"] || JSON.stringify(v)`. -/
def viewKey (v : JVal) : JVal :=
  match v with
  | .str _ => v
  | _ => jsOr (getF v "#text") (.str (jsonStringify v))

/-- `normalizeImpressions` of the resolver: wrap into an array, keep string
entries as `\x7b "#text": s \x7d`, keep objects that already carry a string
`#text`, rebuild objects carrying a string `url`, drop everything else. -/
def normalizeImpressions (imps : JVal) : List JVal :=
  let arr : List JVal :=
    match imps with
    | .arr xs => xs
    | v => if truthy v then [v] else []
  arr.filterMap (fun x =>
    match x with
    | .str s => some (.obj [("#text", .str s)])
    | .obj _ =>
        match getF x "#text" with
        | .str _ => some x
        | _ =>
            match getF x "url" with
            | .str u => some (.obj [("#text", .str u), ("id", getF x "id")])
            | _ => none
    | .arr _ =>
        -- an array is `typeof === "object"` but carries neither field
        none
    | _ => none)

/-- One step of the `IMP_DEDUP` loop of `mergeImpressions`: skip entries
with a falsy URL, then first occurrence per URL. -/
def impDedupStep (st : List JVal × List JVal) (imp : JVal) : List JVal × List JVal :=
  let url := jsOr (getF imp "#text") (.str "")
  if ¬ truthy url then st
  else if url ∈ st.1 then st
  else (url :: st.1, st.2 ++ [imp])

/-- `mergeImpressions(wrapperNode, inlineNode)` of the resolver, returning
the updated inline node.  Wrapper impressions are origin-tagged; with the
`IMP_DEDUP` toggle on the combined list is deduplicated by exact URL text
(inline first), otherwise everything is kept, inline first; the field is
only written when the merged list is non-empty. -/
def mergeImpressions (impDedup : Bool) (wrapperNode inlineNode : JVal) : JVal :=
  let wImp := (normalizeImpressions (getF wrapperNode "Impression")).map
    (fun o => objLit o [("data-origin", .str "wrapper")])
  let iImp := normalizeImpressions (getF inlineNode "Impression")
  let merged :=
    if impDedup then ((iImp ++ wImp).foldl impDedupStep ([], [])).2
    else iImp ++ wImp
  if merged.length ≠ 0 then setField inlineNode "Impression" (.arr merged) else inlineNode

/-- The body of `mergeWrapperIntoInline` after its guard, acting on the
wrapper `Ad` child node `w` and the inline `Ad` child node `i` (the source
mutates `i` in place; the embedding returns the updated node). -/
def mergeAdNodes (impDedup : Bool) (w i : JVal) : JVal :=
  -- 1) Impressions
  let i1 := mergeImpressions impDedup w i
  -- 2) Linear TrackingEvents
  let wCreatives := toArr (jsOr (jsOr (getF (idx0 (getF w "Creatives")) "Creative")
      (getF (getF w "Creatives") "Creative")) (.arr []))
  let iCreatives := toArr (jsOr (jsOr (getF (idx0 (getF i1 "Creatives")) "Creative")
      (getF (getF i1 "Creatives") "Creative")) (.arr []))
  let wLinear := toArr (jsOr (getF (nth0 wCreatives) "Linear")
      (if truthy (idx0 (getF (nth0 wCreatives) "Linear"))
       then idx0 (getF (nth0 wCreatives) "Linear") else .arr []))
  let iLinear := toArr (jsOr (getF (nth0 iCreatives) "Linear")
      (if truthy (idx0 (getF (nth0 iCreatives) "Linear"))
       then idx0 (getF (nth0 iCreatives) "Linear") else .arr []))
  let wTrk := toArr (jsOr (getF (idx0 (getF (nth0 wLinear) "TrackingEvents")) "Tracking")
      (jsOr (getF (getF (nth0 wLinear) "TrackingEvents") "Tracking") (.arr [])))
  let iTrk := toArr (jsOr (getF (idx0 (getF (nth0 iLinear) "TrackingEvents")) "Tracking")
      (jsOr (getF (getF (nth0 iLinear) "TrackingEvents") "Tracking") (.arr [])))
  let mergedTrk := mergeUnique iTrk wTrk (some trkKey)
  let i2 :=
    if truthy (nth0 iLinear) then
      let lin := setField (nth0 iLinear) "TrackingEvents"
        (.arr [.obj [("Tracking", .arr mergedTrk)]])
      if truthy (nth0 iCreatives) then
        let cre := setField (nth0 iCreatives) "Linear" (.arr [lin])
        setField i1 "Creatives" (.arr [.obj [("Creative", .arr (cre :: iCreatives.tail))]])
      else i1
    else i1
  -- 3) AdVerifications
  let wVer := toArr (jsOr (jsOr (getF (idx0 (getF w "AdVerifications")) "Verification")
      (getF (getF w "AdVerifications") "Verification")) (.arr []))
  let iVer := toArr (jsOr (jsOr (getF (idx0 (getF i2 "AdVerifications")) "Verification")
      (getF (getF i2 "AdVerifications") "Verification")) (.arr []))
  let verMerged := mergeUnique iVer wVer (some verKey)
  let i3 :=
    if verMerged.length ≠ 0
    then setField i2 "AdVerifications" (.arr [.obj [("Verification", .arr verMerged)]])
    else i2
  -- 4) ViewableImpression (Viewable + ViewUndetermined)
  let wVI := jsOr (idx0 (getF w "ViewableImpression")) (jsOr (getF w "ViewableImpression") (.obj []))
  let iVI := jsOr (idx0 (getF i3 "ViewableImpression")) (jsOr (getF i3 "ViewableImpression") (.obj []))
  let mergedViewable := mergeUnique (toArr (jsOr (getF iVI "Viewable") (.arr [])))
      (toArr (jsOr (getF wVI "Viewable") (.arr []))) (some viewKey)
  let mergedUndet := mergeUnique (toArr (jsOr (getF iVI "ViewUndetermined") (.arr [])))
      (toArr (jsOr (getF wVI "ViewUndetermined") (.arr []))) (some viewKey)
  let vi : List (String × JVal) :=
    (if mergedViewable.length ≠ 0 then [("Viewable", JVal.arr mergedViewable)] else []) ++
    (if mergedUndet.length ≠ 0 then [("ViewUndetermined", JVal.arr mergedUndet)] else [])
  if vi.length ≠ 0 then setField i3 "ViewableImpression" (.arr [.obj vi]) else i3

/-- Replace index 0 of an `Ad`/`InLine` slot value (array head or object
key "0"); primitives are immutable in the source (their mutation throws)
and are left unchanged, outside the modelled domain. -/
def updIdx0val (v newNode : JVal) : JVal :=
  match v with
  | .arr (_ :: xs) => .arr (newNode :: xs)
  | .obj _ => setField v "0" newNode
  | _ => v

/-- Write the updated inline `Ad` child back into the document along the
same `VAST.Ad?.[0] || VAST.Ad` / `InLine?.[0] || InLine` access path that
`getInline` read it from (in the source this happens implicitly, because
the read yields an alias into the tree that is then mutated). -/
def setInline (doc : JVal) (newInline : JVal) : JVal :=
  match doc with
  | .obj _ =>
      let vast := getF doc "VAST"
      let adSlot := getF vast "Ad"
      let adNode := jsOr (idx0 adSlot) (jsOr adSlot .null1)
      let inlSlot := getF adNode "InLine"
      let newAdNode :=
        if truthy (idx0 inlSlot)
        then setField adNode "InLine" (updIdx0val inlSlot newInline)
        else setField adNode "InLine" newInline
      let newAdSlot := if truthy (idx0 adSlot) then updIdx0val adSlot newAdNode else newAdNode
      setField doc "VAST" (setField vast "Ad" newAdSlot)
  | _ => doc

/-- `mergeWrapperIntoInline(wrapperDoc, inlineDoc)` of the resolver: a
no-op returning the target unchanged when either the wrapper node or the
inline node is missing, otherwise the field-by-field merge of
`mergeAdNodes` applied through the tree. -/
def mergeWrapperIntoInline (impDedup : Bool) (wrapperDoc inlineDoc : JVal) : JVal :=
  let w := getWrapper wrapperDoc
  let i := getInline inlineDoc
  if ¬ truthy w ∨ ¬ truthy i then inlineDoc
  else setInline inlineDoc (mergeAdNodes impDedup w i)

/-- Result of `resolveToInlineWithMeta`, instrumented: `xml`, `depth` and
`cached` are the source's return values; `finalDoc` is the merged document
before serialisation (`none` on a cache hit) and `trace` the ordered list
of URLs fetched. -/
structure ResolveOut where
  xml : String
  depth : Nat
  cached : String
  finalDoc : Option JVal
  trace : List String
deriving DecidableEq

/-- The wrapper-chain loop of `resolveToInlineWithMeta`, written with the
remaining hop budget `maxDepth - depth` as an explicit structural argument
(the source's `while (depth < MAX_DEPTH)` guard: the budget is positive
exactly when `depth < MAX_DEPTH`, and each iteration increments `depth` by
one, so it decrements the budget by one).  Zero budget exits the loop with
the current state; otherwise the loop stops on an inline document, fails on
a wrapper without a truthy ad-tag URI, and else collects the wrapper and
fetches the referenced URL. -/
def resolveLoopGo (net : String → JVal) :
    Nat → JVal → Nat → List JVal → List String →
    Except String (JVal × Nat × List JVal × List String)
  | 0, doc, depth, wrappers, trace => .ok (doc, depth, wrappers, trace)
  | fuel + 1, doc, depth, wrappers, trace =>
      if truthy (getInline doc) then .ok (doc, depth, wrappers, trace)
      else
        let next := getVastAdTagUri doc
        if ¬ truthy next then .error "Wrapper missing <VASTAdTagURI>."
        else
          let url := toStr next
          resolveLoopGo net fuel (net url) (depth + 1) (wrappers ++ [doc]) (trace ++ [url])

/-- The loop entered at hop count `depth`. -/
def resolveLoop (net : String → JVal) (maxDepth : Nat) (doc : JVal) (depth : Nat)
    (wrappers : List JVal) (trace : List String) :
    Except String (JVal × Nat × List JVal × List String) :=
  resolveLoopGo net (maxDepth - depth) doc depth wrappers trace

/-- `resolveToInlineWithMeta(vastUrl)` of the resolver: cache lookup under
key `rv:` + url (hit → depth 0); otherwise fetch+parse the url, run the
depth-bounded wrapper loop, fold the collected wrappers (outermost first,
i.e. the reversed chain) into the final document with
`mergeWrapperIntoInline`, and return the serialised result with the hop
depth and cache status "miss". -/
def resolveToInlineWithMeta (net : String → JVal) (build : JVal → String)
    (impDedup : Bool) (maxDepth : Nat) (cache : String → Option String)
    (vastUrl : String) : Except String ResolveOut :=
  match cache ("rv:" ++ vastUrl) with
  | some xml => .ok ⟨xml, 0, "hit", none, []⟩
  | none =>
      let doc := net vastUrl
      match resolveLoop net maxDepth doc 0 [] [vastUrl] with
      | .error e => .error e
      | .ok (d, depth, wrappers, trace) =>
          let final := wrappers.reverse.foldl
            (fun acc wdoc => mergeWrapperIntoInline impDedup wdoc acc) d
          .ok ⟨build final, depth, "miss", some final, trace⟩

/-- Result of `unwrapAdmIfWrapper`, instrumented with the fetch trace. -/
structure UnwrapOut where
  adm : JVal
  replaced : Bool
  depth : Nat
  cached : String
  trace : List String
deriving DecidableEq

/-- `unwrapAdmIfWrapper(admXml)` of the resolver: pass non-strings and
markup without the substring "<Wrapper" through unchanged; parse, and pass
through unchanged when no truthy `VASTAdTagURI` is found; otherwise resolve
the referenced chain and return the resolved markup with `replaced = true`.
The oracle `parse` is `parser.parse`. -/
def unwrapAdmIfWrapper (net : String → JVal) (build : JVal → String)
    (parse : String → JVal) (impDedup : Bool) (maxDepth : Nat)
    (cache : String → Option String) (admXml : JVal) : Except String UnwrapOut :=
  if ¬ isStrJ admXml ∨ ¬ strIncludes (strOf admXml) "<Wrapper" then
    .ok ⟨admXml, false, 0, "miss", []⟩
  else
    let doc := parse (strOf admXml)
    let next := getVastAdTagUri doc
    if ¬ truthy next then .ok ⟨admXml, false, 0, "miss", []⟩
    else
      match resolveToInlineWithMeta net build impDedup maxDepth cache (toStr next) with
      | .error e => .error e
      | .ok r => .ok ⟨.str r.xml, true, r.depth, r.cached, r.trace⟩

/-- ASCII lowercase of one character (hostnames and IP literals, the only
strings lowercased by this code, are ASCII). -/
def asciiLower (c : Char) : Char :=
  if 'A' ≤ c ∧ c ≤ 'Z' then Char.ofNat (c.toNat + 32) else c

/-- `String.prototype.toLowerCase` restricted to ASCII input. -/
def jsToLower (s : String) : String := String.mk (s.data.map asciiLower)

/-- `String.prototype.startsWith`. -/
def jsStartsWith (s pat : String) : Bool := pfxChars pat.data s.data

/-- `String.prototype.trim` (ASCII whitespace). -/
def jsTrim (s : String) : String :=
  String.mk (((s.data.dropWhile (fun c => c.isWhitespace)).reverse.dropWhile
    (fun c => c.isWhitespace)).reverse)

/-- Split a character list on a separator; `split` of JavaScript yields one
(possibly empty) group per separator gap. -/
def splitOnChar (sep : Char) : List Char → List (List Char)
  | [] => [[]]
  | c :: cs =>
      if c == sep then [] :: splitOnChar sep cs
      else
        match splitOnChar sep cs with
        | [] => [[c]]
        | g :: gs => (c :: g) :: gs

/-- `String.prototype.split(sep)` for a one-character separator. -/
def jsSplit (s : String) (sep : Char) : List String := (splitOnChar sep s.data).map String.mk

/-- Decimal digit-list value. -/
def digitsToNat (l : List Char) : Nat := l.foldl (fun acc c => acc * 10 + (c.toNat - 48)) 0

/-!
Embedding of the hardened proxy revision (`src/unnamed/part_004`,
`va-proxy/api/openrtb2.mjs`): endpoint selection, URL policy checks and the
DNS-based private-address classifier.  `net.isIP` of the Node standard
library is an oracle `netIsIP : String → Nat` (0 = not an IP, 4, 6);
`dns.resolve4` / `dns.resolve6` are oracles returning the record list (a
lookup that throws contributes the empty list, matching the source's
`try \x7b ... \x7d catch \x7b\x7d`); the WHATWG `URL` constructor is an
oracle `parseURL : String → Option JsURL`.
-/

/-- JavaScript 32-bit unsigned reinterpretation of an integer. -/
def toUint32 (x : Int) : Nat := (x % 4294967296).toNat

/-- JavaScript 32-bit signed reinterpretation of an unsigned word: bitwise
results with the top bit set are negative numbers. -/
def ofUint32 (u : Nat) : Int :=
  if u < 2147483648 then (u : Int) else (u : Int) - 4294967296

/-- JavaScript `a << b` for a constant shift below 32. -/
def jsShl (a : Int) (b : Nat) : Int :=
  ofUint32 ((toUint32 a * 2 ^ (b % 32)) % 4294967296)

/-- JavaScript `a | b` (signed 32-bit bitwise or). -/
def jsOrb (a b : Int) : Int := ofUint32 (Nat.lor (toUint32 a) (toUint32 b))

/-- JavaScript `a & b` (signed 32-bit bitwise and). -/
def jsAnd (a b : Int) : Int := ofUint32 (Nat.land (toUint32 a) (toUint32 b))

/-- `Number(s)` restricted to the use in `isPrivateLikeIp`: the dotted
parts of a string that `net.isIP` classified as IPv4 are plain decimals;
any other input only ever feeds `ToInt32`, for which `NaN` behaves as 0. -/
def jsNumber (s : String) : Int :=
  if s.data ≠ [] ∧ s.data.all (fun c => c.isDigit) then (digitsToNat s.data : Int) else 0

/-- `parts[i]` of the split address; a missing part is `undefined`, which
`ToInt32` sends to 0. -/
def partsGet (parts : List Int) (i : Nat) : Int := parts.getD i 0

/-- The `inRange` closure of `isPrivateLikeIp`: `(n & mask) === start`.
The start and mask are the numeric values of the source's hexadecimal
literals (always non-negative), while `n & mask` is a signed 32-bit result:
for ranges whose leading octet is at least 128 the comparison is between a
negative number and a positive literal. -/
def inRange (n start mask : Int) : Bool := jsAnd n mask == start

/-- `isPrivateLikeIp(ip)` of the hardened revision. -/
def isPrivateLikeIp (netIsIP : String → Nat) (ip : String) : Bool :=
  if netIsIP ip == 0 then false
  else if netIsIP ip == 4 then
    let parts := (jsSplit ip '.').map jsNumber
    let n := jsOrb (jsOrb (jsOrb (jsShl (partsGet parts 0) 24) (jsShl (partsGet parts 1) 16))
        (jsShl (partsGet parts 2) 8)) (partsGet parts 3)
    inRange n 0x0A000000 0xFF000000 ||          -- 10.0.0.0/8
    inRange n 0xAC100000 0xFFF00000 ||          -- 172.16.0.0/12
    inRange n 0xC0A80000 0xFFFF0000 ||          -- 192.168.0.0/16
    inRange n 0x7F000000 0xFF000000 ||          -- 127.0.0.0/8 loopback
    inRange n 0xA9FE0000 0xFFFF0000 ||          -- 169.254.0.0/16 link-local
    inRange n 0x64400000 0xFFC00000 ||          -- 100.64.0.0/10 CGNAT
    (jsAnd n 0xF0000000 == 0xE0000000) ||       -- 224.0.0.0/4 multicast
    (jsAnd n 0xF0000000 == 0xF0000000)          -- 240.0.0.0/4 reserved
  else if netIsIP ip == 6 then
    let lower := jsToLower ip
    lower == "::1" ||
    jsStartsWith lower "fe8" || jsStartsWith lower "fe9" ||
    jsStartsWith lower "fea" || jsStartsWith lower "feb" ||
    jsStartsWith lower "fc" || jsStartsWith lower "fd" ||
    jsStartsWith lower "ff"
  else false

/-- First-occurrence deduplication, as performed by inserting into a
JavaScript `Set` and spreading it back out. -/
def dedupStringsGo (seen : List String) : List String → List String
  | [] => []
  | s :: ss => if seen.contains s then dedupStringsGo seen ss else s :: dedupStringsGo (s :: seen) ss

/-- The resolved-address `Set` of `resolveAndCheckHost`, as a list in
insertion order. -/
def dedupStrings (l : List String) : List String := dedupStringsGo [] l

/-- `resolveAndCheckHost(urlObj)` of the hardened revision, on the
hostname: reject IP-literal hosts, resolve both record types, fail when
nothing resolves, reject when any resolved address is private-like.  Errors
carry the HTTP status attached by the source. -/
def resolveAndCheckHost (netIsIP : String → Nat) (dns4 dns6 : String → List String)
    (host : String) : Except (Nat × String) (List String) :=
  if netIsIP host ≠ 0 then .error (403, "IP literals are not allowed as hosts.")
  else
    let addrs := dedupStrings (dns4 host ++ dns6 host)
    if addrs.length = 0 then .error (502, "Host did not resolve to any IPs.")
    else if addrs.any (fun ip => isPrivateLikeIp netIsIP ip) then
      .error (403, "Resolved IP is private/link-local/loopback/reserved.")
    else .ok addrs

/-- The view of a parsed WHATWG `URL` that the validator inspects. -/
structure JsURL where
  protocol : String
  username : String
  password : String
  hostname : String
  host : String
deriving DecidableEq

/-- `isHttpsUrlStrict(u)` of the hardened revision: parse, require the
https scheme, forbid embedded credentials. -/
def isHttpsUrlStrict (parseURL : String → Option JsURL) (u : String) : Option JsURL :=
  match parseURL u with
  | none => none
  | some url =>
      if url.protocol != "https:" then none
      else if url.username != "" || url.password != "" then none
      else some url

/-- `parseAllowlist(env)` of the hardened revision, on the raw
`BID_ENDPOINT_ALLOWLIST` value. -/
def parseAllowlist (raw : String) : Option (List String) :=
  let r := jsTrim raw
  if r == "" then none
  else some (((jsSplit r ',').map (fun s => jsToLower (jsTrim s))).filter (fun s => s != ""))

/-- `isAllowedHost(urlObj, allowlist)` of the hardened revision. -/
def isAllowedHost (url : JsURL) (allowlist : Option (List String)) : Bool :=
  match allowlist with
  | none => true
  | some l =>
      if l.length = 0 then true
      else l.contains (jsToLower url.host) || l.contains (jsToLower url.hostname)

/-- `getCandidateEndpoint(req, env)` of the hardened revision.  Header and
query values are strings with "" standing for an absent header (JavaScript
string truthiness is exactly non-emptiness); `b64dec` is the base64
decoder. -/
def getCandidateEndpoint (b64dec : String → String) (hb64 hdr qp : String)
    (isProd : Bool) (envUrl : String) : String :=
  let fromClient :=
    if hb64 != "" then b64dec hb64
    else if hdr != "" then hdr
    else if isProd then "" else qp
  if fromClient != "" then fromClient else envUrl

/-- `resolveSecureEndpoint(req, env)` of the hardened revision: candidate
selection, https/credential check, allowlist check, then DNS address
safety; any failure is a statused error and no fetch is attempted. -/
def resolveSecureEndpoint (parseURL : String → Option JsURL) (b64dec : String → String)
    (netIsIP : String → Nat) (dns4 dns6 : String → List String)
    (allowRaw : String) (hb64 hdr qp : String) (isProd : Bool) (envUrl : String) :
    Except (Nat × String) JsURL :=
  let allowlist := parseAllowlist allowRaw
  let cand := getCandidateEndpoint b64dec hb64 hdr qp isProd envUrl
  if cand = "" then .error (400, "No bid endpoint provided.")
  else
    match isHttpsUrlStrict parseURL cand with
    | none => .error (400, "Bid endpoint must be https and have no credentials.")
    | some url =>
        if ¬ isAllowedHost url allowlist then
          .error (403, "Bid endpoint host is not in allowlist.")
        else
          match resolveAndCheckHost netIsIP dns4 dns6 url.hostname with
          | .error e => .error e
          | .ok _ => .ok url

/-!
Embedding of the current OpenRTB handler (`src/unnamed/part_006`,
`api/openrtb2.mjs`): the per-bid unwrap/merge processing that runs on a
JSON upstream bid response, and the post-upstream part of the handler.

The imported library functions are oracles here: `unwrapO` for
`unwrapAdmIfWrapper` (its thrown failures are `Except.error`), `mergeO` for
`mergeWrapperImpressionsIntoInlineXml` (returning the merged XML text and
the stats object), `derive` for `deriveEquativRvUrlFromNurl` (which returns
`null` on any failure), `jsonParse` for `JSON.parse`.  The observability
headers (`X-Unwrap`, `X-Unwrap-Cache`, `X-Unwrap-Debug`) and the
`lastDebug` accumulator do not bear on any claim and are not modelled.
-/

/-- The value returned by `unwrapAdmIfWrapper` as seen by the handler. -/
structure UnwrapRet where
  adm : JVal
  replaced : Bool
  depth : Int
  cached : String
deriving DecidableEq

/-- STEP B of the per-bid body of the handler's seatbid/bid loop: when the
(possibly already unwrapped) markup is an inline-carrying string and the
bid has a `nurl`, derive the RV endpoint and merge its impressions,
annotating `ext.unwrap` with the outcome; `derive` returning `null` and a
failed fetch/merge are annotated with their reasons. -/
def processBidStepB (mergeO : String → String → Except String (String × JVal))
    (derive : String → Option String) (b1 : JVal) : JVal :=
  if truthy (getF b1 "nurl") ∧ isStrJ (getF b1 "adm")
      ∧ strIncludes (strOf (getF b1 "adm")) "<InLine" then
    match derive (toStr (getF b1 "nurl")) with
    | some rvUrl =>
        match mergeO (strOf (getF b1 "adm")) rvUrl with
        | .ok (mergedXml, stats) =>
            let beforeXml := strOf (getF b1 "adm")
            let changed := (mergedXml != "") && (mergedXml != beforeXml)
            let b2 := if changed then setField b1 "adm" (.str mergedXml) else b1
            let ext := jsOr (getF b2 "ext") (.obj [])
            setField b2 "ext" (objLit ext
              [("unwrap", objLit (jsOr (getF ext "unwrap") (.obj []))
                [("mergedWrapperImps", .bool changed),
                 ("rvUrl", .str rvUrl),
                 ("rvHasWrapper", getF stats "rvHasWrapper"),
                 ("rvHasInline", getF stats "rvHasInline"),
                 ("rvImpCount", getF stats "rvImpCount"),
                 ("targetImpBefore", getF stats "targetImpBefore"),
                 ("targetImpAfter", getF stats "targetImpAfter"),
                 ("reason", if changed then .null1 else .str "no-change")])])
        | .error _ =>
            let ext := jsOr (getF b1 "ext") (.obj [])
            setField b1 "ext" (objLit ext
              [("unwrap", objLit (jsOr (getF ext "unwrap") (.obj []))
                [("mergedWrapperImps", .bool false),
                 ("rvUrl", .str rvUrl),
                 ("reason", .str "rv-fetch-or-merge-failed")])])
    | none =>
        let ext := jsOr (getF b1 "ext") (.obj [])
        setField b1 "ext" (objLit ext
          [("unwrap", objLit (jsOr (getF ext "unwrap") (.obj []))
            [("mergedWrapperImps", .bool false),
             ("reason", .str "rv-url-not-derived")])])
  else b1

/-- STEP A of the per-bid body: when the markup contains "<Wrapper", unwrap
it; a successful replacement installs the resolved markup and the
depth/cache annotation, a thrown failure is caught and recorded as the
`unwrap-failed` annotation with depth -1. -/
def processBidStepA (unwrapO : String → Except String UnwrapRet) (b : JVal) : JVal :=
  let adm0 := strOf (getF b "adm")
  if strIncludes adm0 "<Wrapper" then
    match unwrapO adm0 with
    | .ok r =>
        if r.replaced then
          let b' := setField b "adm" r.adm
          setField b' "ext" (objLit (jsOr (getF b "ext") (.obj []))
            [("unwrap", .obj [("depth", .num r.depth), ("cached", .str r.cached)])])
        else b
    | .error _ =>
        setField b "ext" (objLit (jsOr (getF b "ext") (.obj []))
          [("unwrap", .obj [("depth", .num (-1)), ("cached", .str "n/a"),
                            ("error", .str "unwrap-failed")])])
  else b

/-- The per-bid body of the handler's seatbid/bid loop: bids whose `adm` is
not a string are skipped, every other bid runs STEP A then STEP B. -/
def processBid (unwrapO : String → Except String UnwrapRet)
    (mergeO : String → String → Except String (String × JVal))
    (derive : String → Option String) (b : JVal) : JVal :=
  if ¬ isStrJ (getF b "adm") then b
  else processBidStepB mergeO derive (processBidStepA unwrapO b)

/-- One seatbid entry of the loop: every element of its (array-valued)
`bid` field is processed; a falsy `bid` iterates nothing. -/
def processSeatbid (unwrapO : String → Except String UnwrapRet)
    (mergeO : String → String → Except String (String × JVal))
    (derive : String → Option String) (sb : JVal) : JVal :=
  match getF sb "bid" with
  | .arr bids => setField sb "bid" (.arr (bids.map (processBid unwrapO mergeO derive)))
  | _ => sb

/-- The unwrap/merge pass over the parsed bid response: runs only when
`seatbid` is an array. -/
def handlerProcess (unwrapO : String → Except String UnwrapRet)
    (mergeO : String → String → Except String (String × JVal))
    (derive : String → Option String) (bidResp : JVal) : JVal :=
  match getF bidResp "seatbid" with
  | .arr sbs => setField bidResp "seatbid" (.arr (sbs.map (processSeatbid unwrapO mergeO derive)))
  | _ => bidResp

/-- The handler after the upstream exchange succeeded: a non-JSON
content-type or an unparseable body is passed through verbatim, otherwise
the processed response is sent; in every case the status sent to the caller
is the upstream status. -/
def handlerAfterUpstream (unwrapO : String → Except String UnwrapRet)
    (mergeO : String → String → Except String (String × JVal))
    (derive : String → Option String) (jsonParse : String → Option JVal)
    (status : Nat) (ct : String) (bodyText : String) : Nat × (String ⊕ JVal) :=
  if ¬ strIncludes ct "json" then (status, .inl bodyText)
  else
    match jsonParse bodyText with
    | none => (status, .inl bodyText)
    | some bidResp => (status, .inr (handlerProcess unwrapO mergeO derive bidResp))

/-!
General lemmas about the embedded operations, shared by the claim theorems
below.
-/

set_option maxRecDepth 40000

/-- The guard of `mergeWrapperIntoInline`: a missing wrapper node or a
missing inline node makes the merge return its target unchanged. -/
theorem merge_guard (impDedup : Bool) (w i : JVal)
    (h : ¬ truthy (getWrapper w) ∨ ¬ truthy (getInline i)) :
    mergeWrapperIntoInline impDedup w i = i := by
  simp only [mergeWrapperIntoInline]
  rw [if_pos]
  rcases h with h | h
  · exact Or.inl (by simpa using h)
  · exact Or.inr (by simpa using h)

/-- Folding any sequence of wrapper merges into a document that has no
inline node leaves the document untouched. -/
theorem foldl_merge_no_inline (impDedup : Bool) (d : JVal)
    (hd : ¬ truthy (getInline d)) (l : List JVal) :
    l.foldl (fun acc w => mergeWrapperIntoInline impDedup w acc) d = d := by
  induction l with
  | nil => rfl
  | cons w ws ih =>
      simp only [List.foldl_cons, merge_guard impDedup w d (Or.inr hd), ih]

/-- Stepping the resolution loop along a chain of wrapper documents
`f 0, f 1, ...` linked by ad-tag URLs `u 1, u 2, ...`: from hop `j` the
loop reaches the state at hop `n`. -/
theorem resolveLoop_steps (net : String → JVal) (maxD n : Nat) (f : Nat → JVal) (u : Nat → String)
    (hn : n ≤ maxD)
    (hnet : ∀ k, k ≤ n → net (u k) = f k)
    (hw : ∀ k, k < n → ¬ truthy (getInline (f k)))
    (ht : ∀ k, k < n → getVastAdTagUri (f k) = .str (u (k + 1)))
    (hne : ∀ k, k < n → u (k + 1) ≠ "") :
    ∀ m j ws tr, j + m = n →
      ∃ ws2 tr2, resolveLoopGo net (maxD - j) (f j) j ws tr
        = resolveLoopGo net (maxD - n) (f n) n ws2 tr2 := by
  intro m
  induction m with
  | zero =>
      intro j ws tr hj
      exact ⟨ws, tr, by rw [Nat.add_zero] at hj; rw [hj]⟩
  | succ m ih =>
      intro j ws tr hj
      have hjn : j < n := by omega
      have hfuel : maxD - j = (maxD - (j + 1)) + 1 := by omega
      rw [hfuel, resolveLoopGo]
      rw [if_neg (by simpa using hw j hjn)]
      rw [ht j hjn]
      have htru : truthy (JVal.str (u (j + 1))) = true := by
        simp [truthy, hne j hjn]
      rw [if_neg (by simp [htru])]
      have hstep : net (u (j + 1)) = f (j + 1) := hnet (j + 1) (by omega)
      simp only [toStr, hstep]
      exact ih (j + 1) (ws ++ [f j]) (tr ++ [u (j + 1)]) (by omega)

/-- Running the resolver on a chain of `MAX_DEPTH` wrapper documents: the
loop budget is exhausted exactly at the document `f MAX_DEPTH`, and the
call returns successfully with depth `MAX_DEPTH` — whatever that final
document is; when it is not inline, the merge fold is a no-op and the
final document is returned unresolved. -/
theorem resolve_chain_exact (net : String → JVal) (build : JVal → String)
    (impDedup : Bool) (cache : String → Option String) (f : Nat → JVal) (u : Nat → String)
    (h0 : cache ("rv:" ++ u 0) = none)
    (hnet : ∀ k, k ≤ MAX_DEPTH → net (u k) = f k)
    (hw : ∀ k, k < MAX_DEPTH → ¬ truthy (getInline (f k)))
    (ht : ∀ k, k < MAX_DEPTH → getVastAdTagUri (f k) = .str (u (k + 1)))
    (hne : ∀ k, k < MAX_DEPTH → u (k + 1) ≠ "") :
    ∃ r, resolveToInlineWithMeta net build impDedup MAX_DEPTH cache (u 0) = .ok r ∧
      r.depth = MAX_DEPTH ∧ r.cached = "miss" ∧
      (¬ truthy (getInline (f MAX_DEPTH)) → r.finalDoc = some (f MAX_DEPTH)) := by
  obtain ⟨ws2, tr2, hloop⟩ := resolveLoop_steps net MAX_DEPTH MAX_DEPTH f u (le_refl _)
    hnet hw ht hne MAX_DEPTH 0 [] [u 0] (by omega)
  have hn0 : net (u 0) = f 0 := hnet 0 (by omega)
  have hsub : MAX_DEPTH - MAX_DEPTH = 0 := by omega
  rw [hsub, resolveLoopGo] at hloop
  rw [Nat.sub_zero] at hloop
  refine ⟨⟨build ((ws2.reverse).foldl (fun acc wdoc => mergeWrapperIntoInline impDedup wdoc acc)
      (f MAX_DEPTH)), MAX_DEPTH, "miss",
    some ((ws2.reverse).foldl (fun acc wdoc => mergeWrapperIntoInline impDedup wdoc acc)
      (f MAX_DEPTH)), tr2⟩, ?_, rfl, rfl, ?_⟩
  · simp only [resolveToInlineWithMeta, h0, hn0, resolveLoop, Nat.sub_zero, hloop]
  · intro hni
    simp only [foldl_merge_no_inline impDedup _ hni]

/-- Specification-side de-duplication, following the table's words: keep
each entry's first occurrence per key, drop every later entry with a key
already kept. -/
def dedupByFirst (key : JVal → JVal) : List JVal → List JVal
  | [] => []
  | x :: xs => x :: dedupByFirst key (xs.filter (fun y => key y ≠ key x))
termination_by l => l.length
decreasing_by
  simp only [List.length_cons]
  exact Nat.lt_succ_of_le (List.length_filter_le _ _)

/-- The seen-set formulation of first-occurrence de-duplication that the
fold of `mergeUnique` computes. -/
def dedupFilter (key : JVal → JVal) (seen : List JVal) : List JVal → List JVal
  | [] => []
  | x :: xs =>
      if key x ∈ seen then dedupFilter key seen xs
      else x :: dedupFilter key (key x :: seen) xs

theorem mergeUnique_some (key : JVal → JVal) (a b : List JVal) :
    mergeUnique a b (some key) = ((a ++ b).foldl (mergeUniqueStep key) ([], [])).2 := rfl

theorem mergeUnique_foldl (key : JVal → JVal) :
    ∀ (l : List JVal) (seen out : List JVal),
      (l.foldl (mergeUniqueStep key) (seen, out)).2 = out ++ dedupFilter key seen l := by
  intro l
  induction l with
  | nil => intro seen out; simp [dedupFilter]
  | cons x xs ih =>
      intro seen out
      by_cases h : key x ∈ seen
      · simp [mergeUniqueStep, h, dedupFilter, ih]
      · simp [mergeUniqueStep, h, dedupFilter, ih]

theorem dedupFilter_eq_dedupByFirst (key : JVal → JVal) :
    ∀ (l : List JVal) (seen : List JVal),
      dedupFilter key seen l = dedupByFirst key (l.filter (fun y => decide (key y ∉ seen))) := by
  intro l
  induction l with
  | nil => intro seen; rw [dedupFilter, List.filter_nil, dedupByFirst]
  | cons x xs ih =>
      intro seen
      rw [dedupFilter]
      by_cases h : key x ∈ seen
      · rw [if_pos h, List.filter_cons_of_neg (by simpa using h), ih]
      · rw [if_neg h, List.filter_cons_of_pos (by simpa using h), dedupByFirst, ih]
        congr 1
        congr 1
        rw [List.filter_filter]
        apply List.filter_congr
        intro y _
        simp only [List.mem_cons, not_or, Bool.decide_and, decide_not]

/-- `mergeUnique` is exactly first-occurrence de-duplication of the
concatenated input, first list first. -/
theorem mergeUnique_eq_dedupByFirst (key : JVal → JVal) (a b : List JVal) :
    mergeUnique a b (some key) = dedupByFirst key (a ++ b) := by
  rw [mergeUnique_some, mergeUnique_foldl, dedupFilter_eq_dedupByFirst]
  simp

theorem dedupFilter_append (key : JVal → JVal) :
    ∀ (a : List JVal) (seen : List JVal) (b : List JVal),
      ∃ r, dedupFilter key seen (a ++ b) = dedupFilter key seen a ++ r := by
  intro a
  induction a with
  | nil => intro seen b; exact ⟨dedupFilter key seen b, by rw [dedupFilter]; simp⟩
  | cons x xs ih =>
      intro seen b
      rw [List.cons_append, dedupFilter, dedupFilter]
      by_cases h : key x ∈ seen
      · rw [if_pos h, if_pos h]
        exact ih seen b
      · rw [if_neg h, if_neg h]
        obtain ⟨r, hr⟩ := ih (key x :: seen) b
        exact ⟨r, by rw [hr, List.cons_append]⟩

/-- The first-list side of a `mergeUnique` call survives, deduplicated, as
a prefix of the result. -/
theorem mergeUnique_leading_part (key : JVal → JVal) (a b : List JVal) :
    ∃ r, mergeUnique a b (some key) = dedupByFirst key a ++ r := by
  obtain ⟨r, hr⟩ := dedupFilter_append key a [] b
  refine ⟨r, ?_⟩
  rw [mergeUnique_some, mergeUnique_foldl]
  simp only [List.nil_append]
  rw [hr, dedupFilter_eq_dedupByFirst]
  simp

theorem find_setAssoc_same (k : String) (x : JVal) :
    ∀ fs, (setAssoc fs k x).find? (fun p => p.1 == k) = some (k, x)
  | [] => by simp [setAssoc, List.find?]
  | (l, w) :: fs => by
      by_cases h : l = k
      · simp [setAssoc, h, List.find?]
      · simp only [setAssoc, beq_iff_eq, if_neg h]
        rw [List.find?_cons_of_neg _ (by simpa using h)]
        exact find_setAssoc_same k x fs

/-- Reading back the key just written. -/
theorem getF_setField_same (fs : List (String × JVal)) (k : String) (x : JVal) :
    getF (setField (.obj fs) k x) k = x := by
  simp [setField, getF, find_setAssoc_same]

theorem find_setAssoc_ne (k k2 : String) (h : k2 ≠ k) (x : JVal) :
    ∀ fs, (setAssoc fs k x).find? (fun p => p.1 == k2) = fs.find? (fun p => p.1 == k2)
  | [] => by
      simp only [setAssoc]
      rw [List.find?_cons_of_neg _ (by simpa using Ne.symm h), List.find?_nil]
  | (l, w) :: fs => by
      by_cases hl : l = k
      · simp only [setAssoc, beq_iff_eq, if_pos hl]
        rw [List.find?_cons_of_neg _ (by simpa using Ne.symm h)]
        subst hl
        rw [List.find?_cons_of_neg _ (by simpa using Ne.symm h)]
      · simp only [setAssoc, beq_iff_eq, if_neg hl]
        by_cases hl2 : l = k2
        · subst hl2
          rw [List.find?_cons_of_pos _ (by simp), List.find?_cons_of_pos _ (by simp)]
        · rw [List.find?_cons_of_neg _ (by simpa using hl2),
            List.find?_cons_of_neg _ (by simpa using hl2)]
          exact find_setAssoc_ne k k2 h x fs

/-- Writing one key does not disturb another. -/
theorem getF_setField_ne (v : JVal) (k k2 : String) (h : k2 ≠ k) (x : JVal) :
    getF (setField v k x) k2 = getF v k2 := by
  cases v with
  | obj fs => simp only [setField, getF, find_setAssoc_ne k k2 h]
  | null1 => rfl
  | bool b => rfl
  | num n => rfl
  | str s => rfl
  | arr xs => rfl

theorem setField_is_obj (fs : List (String × JVal)) (k : String) (x : JVal) :
    setField (.obj fs) k x = .obj (setAssoc fs k x) := rfl

/-- A fold of property writes whose keys all differ from `k` preserves the
value at `k`. -/
theorem getF_foldl_setField_ne (k : String) :
    ∀ (kvs : List (String × JVal)) (fs : List (String × JVal)),
      (∀ kv ∈ kvs, kv.1 ≠ k) →
      getF (kvs.foldl (fun o kv => setField o kv.1 kv.2) (.obj fs)) k = getF (.obj fs) k
  | [], fs, _ => rfl
  | kv :: kvs, fs, h => by
      simp only [List.foldl_cons, setField_is_obj]
      rw [getF_foldl_setField_ne k kvs _ (fun p hp => h p (List.mem_cons_of_mem _ hp))]
      rw [← setField_is_obj]
      exact getF_setField_ne _ kv.1 k (Ne.symm (h kv (List.mem_cons_self _ _))) kv.2

/-- An object literal is an object. -/
theorem objLit_is_obj (v : JVal) (kvs : List (String × JVal)) :
    ∃ gs, objLit v kvs = .obj gs := by
  induction kvs generalizing v with
  | nil => exact ⟨jsSpreadObj v, rfl⟩
  | cons kv kvs ih =>
      simp only [objLit, List.foldl_cons, setField_is_obj]
      simpa [objLit, jsSpreadObj] using
        ih (.obj (setAssoc (jsSpreadObj v) kv.1 kv.2))

/-- A key not named in the literal keeps the value it has in the spread. -/
theorem getF_objLit_ne (v : JVal) (kvs : List (String × JVal)) (k : String)
    (h : ∀ kv ∈ kvs, kv.1 ≠ k) :
    getF (objLit v kvs) k = getF (.obj (jsSpreadObj v)) k :=
  getF_foldl_setField_ne k kvs (jsSpreadObj v) h

/-- Reading the single key written by a one-entry object literal. -/
theorem getF_objLit_single (v : JVal) (k : String) (x : JVal) :
    getF (objLit v [(k, x)]) k = x := by
  simp only [objLit, List.foldl_cons, List.foldl_nil]
  exact getF_setField_same (jsSpreadObj v) k x

/-- Spreading an object yields its own fields. -/
theorem jsSpreadObj_obj (fs : List (String × JVal)) : jsSpreadObj (.obj fs) = fs := rfl

/-- The URL key under which `mergeImpressions` deduplicates: the entry's
`#text`, with a falsy value collapsed to the empty string. -/
def impUrl (imp : JVal) : JVal := jsOr (getF imp "#text") (.str "")

/-- Specification-side impression de-duplication: drop entries with a
falsy URL, keep the first occurrence of every URL, drop later repeats. -/
def keepFirstByUrl : List JVal → List JVal
  | [] => []
  | x :: xs =>
      if ¬ truthy (impUrl x) then keepFirstByUrl xs
      else x :: keepFirstByUrl (xs.filter (fun y => impUrl y ≠ impUrl x))
termination_by l => l.length
decreasing_by
  · simp only [List.length_cons]; omega
  · simp only [List.length_cons]
    exact Nat.lt_succ_of_le (List.length_filter_le _ _)

/-- The seen-set formulation computed by the `IMP_DEDUP` fold. -/
def impFilter (seen : List JVal) : List JVal → List JVal
  | [] => []
  | x :: xs =>
      if ¬ truthy (impUrl x) then impFilter seen xs
      else if impUrl x ∈ seen then impFilter seen xs
      else x :: impFilter (impUrl x :: seen) xs

theorem impDedupStep_eq (st : List JVal × List JVal) (x : JVal) :
    impDedupStep st x =
      if ¬ truthy (impUrl x) then st
      else if impUrl x ∈ st.1 then st
      else (impUrl x :: st.1, st.2 ++ [x]) := rfl

theorem impDedup_foldl :
    ∀ (l : List JVal) (seen out : List JVal),
      (l.foldl impDedupStep (seen, out)).2 = out ++ impFilter seen l := by
  intro l
  induction l with
  | nil => intro seen out; simp [impFilter]
  | cons x xs ih =>
      intro seen out
      rw [List.foldl_cons, impDedupStep_eq]
      by_cases hu : truthy (impUrl x)
      · rw [if_neg (by simpa using hu)]
        by_cases h : impUrl x ∈ seen
        · rw [if_pos h, ih, impFilter, if_neg (by simpa using hu), if_pos h]
        · rw [if_neg h, ih, impFilter, if_neg (by simpa using hu), if_neg h]
          simp
      · rw [if_pos (by simpa using hu), ih, impFilter, if_pos (by simpa using hu)]

theorem impFilter_eq_keepFirst :
    ∀ (l : List JVal) (seen : List JVal),
      impFilter seen l = keepFirstByUrl (l.filter (fun y => decide (impUrl y ∉ seen))) := by
  intro l
  induction l with
  | nil => intro seen; rw [impFilter, List.filter_nil, keepFirstByUrl]
  | cons x xs ih =>
      intro seen
      rw [impFilter]
      by_cases hu : truthy (impUrl x)
      · by_cases h : impUrl x ∈ seen
        · rw [if_neg (by simpa using hu), if_pos h,
            List.filter_cons_of_neg (by simpa using h), ih]
        · rw [if_neg (by simpa using hu), if_neg h,
            List.filter_cons_of_pos (by simpa using h), keepFirstByUrl,
            if_neg (by simpa using hu), ih]
          congr 1
          congr 1
          rw [List.filter_filter]
          apply List.filter_congr
          intro y _
          simp only [List.mem_cons, not_or, Bool.decide_and, decide_not]
      · by_cases h : impUrl x ∈ seen
        · rw [if_pos (by simpa using hu), List.filter_cons_of_neg (by simpa using h), ih]
        · rw [if_pos (by simpa using hu), List.filter_cons_of_pos (by simpa using h),
            keepFirstByUrl, if_pos (by simpa using hu), ih]

theorem impFilter_append :
    ∀ (a : List JVal) (seen : List JVal) (b : List JVal),
      ∃ r, impFilter seen (a ++ b) = impFilter seen a ++ r := by
  intro a
  induction a with
  | nil => intro seen b; exact ⟨impFilter seen b, by rw [impFilter]; simp⟩
  | cons x xs ih =>
      intro seen b
      rw [List.cons_append, impFilter, impFilter]
      by_cases hu : truthy (impUrl x)
      · by_cases h : impUrl x ∈ seen
        · rw [if_neg (by simpa using hu), if_pos h, if_neg (by simpa using hu), if_pos h]
          exact ih seen b
        · rw [if_neg (by simpa using hu), if_neg h, if_neg (by simpa using hu), if_neg h]
          obtain ⟨r, hr⟩ := ih (impUrl x :: seen) b
          exact ⟨r, by rw [hr, List.cons_append]⟩
      · rw [if_pos (by simpa using hu), if_pos (by simpa using hu)]
        exact ih seen b

theorem jsOr_obj (fs : List (String × JVal)) (y : JVal) : jsOr (.obj fs) y = .obj fs := rfl

theorem processBidStepA_error (uO : String → Except String UnwrapRet) (b : JVal) (adm : String)
    (e : String)
    (hadm : getF b "adm" = .str adm)
    (hwrap : strIncludes adm "<Wrapper" = true)
    (herr : uO adm = .error e) :
    processBidStepA uO b = setField b "ext" (objLit (jsOr (getF b "ext") (.obj []))
      [("unwrap", .obj [("depth", .num (-1)), ("cached", .str "n/a"),
                        ("error", .str "unwrap-failed")])]) := by
  simp only [processBidStepA, hadm, strOf, hwrap, if_true, herr]

theorem processBidStepB_skip (mO : String → String → Except String (String × JVal))
    (dv : String → Option String) (b1 : JVal)
    (h : ¬ (truthy (getF b1 "nurl") ∧ isStrJ (getF b1 "adm")
        ∧ strIncludes (strOf (getF b1 "adm")) "<InLine")) :
    processBidStepB mO dv b1 = b1 := by
  unfold processBidStepB
  rw [if_neg h]

theorem annotate_preserves (fs : List (String × JVal)) (V U : JVal)
    (us kvs : List (String × JVal)) (k : String)
    (hus : U = .obj us) (hkv : ∀ kv ∈ kvs, kv.1 ≠ k) :
    getF (getF (getF (setField (.obj fs) "ext" (objLit V [("unwrap", objLit U kvs)]))
      "ext") "unwrap") k = getF U k := by
  rw [getF_setField_same, getF_objLit_single, hus, getF_objLit_ne _ _ _ hkv, jsSpreadObj_obj]

theorem processBidStepB_preserves_unwrap (mO : String → String → Except String (String × JVal))
    (dv : String → Option String) (fs E us : List (String × JVal)) (k : String)
    (hext : getF (.obj fs) "ext" = .obj E)
    (hU : getF (.obj E) "unwrap" = .obj us)
    (hk : k ≠ "mergedWrapperImps" ∧ k ≠ "rvUrl" ∧ k ≠ "rvHasWrapper" ∧ k ≠ "rvHasInline" ∧
          k ≠ "rvImpCount" ∧ k ≠ "targetImpBefore" ∧ k ≠ "targetImpAfter" ∧ k ≠ "reason") :
    getF (getF (getF (processBidStepB mO dv (.obj fs)) "ext") "unwrap") k = getF (.obj us) k := by
  obtain ⟨h1, h2, h3, h4, h5, h6, h7, h8⟩ := hk
  unfold processBidStepB
  by_cases hcond : (truthy (getF (.obj fs) "nurl") ∧ isStrJ (getF (.obj fs) "adm")
      ∧ strIncludes (strOf (getF (.obj fs) "adm")) "<InLine")
  · rw [if_pos hcond]
    split
    · -- derive returned an RV URL
      split
      · -- merge succeeded
        rename_i mergedXml stats hmo
        simp only [hext, jsOr_obj, hU]
        by_cases hch : ((mergedXml != "") && (mergedXml != strOf (getF (JVal.obj fs) "adm"))) = true
        · rw [if_pos hch]
          have hext2 : getF (setField (JVal.obj fs) "adm" (JVal.str mergedXml)) "ext"
              = JVal.obj E := by
            rw [getF_setField_ne _ _ _ (by decide), hext]
          rw [setField_is_obj]
          rw [setField_is_obj] at hext2
          simp only [hext2, jsOr_obj, hU]
          refine annotate_preserves _ _ _ us _ k rfl ?_
          intro kv hkv
          simp only [List.mem_cons, List.not_mem_nil, or_false] at hkv
          rcases hkv with h | h | h | h | h | h | h | h
          · subst h; exact Ne.symm h1
          · subst h; exact Ne.symm h2
          · subst h; exact Ne.symm h3
          · subst h; exact Ne.symm h4
          · subst h; exact Ne.symm h5
          · subst h; exact Ne.symm h6
          · subst h; exact Ne.symm h7
          · subst h; exact Ne.symm h8
        · rw [if_neg hch]
          simp only [hext, jsOr_obj, hU]
          refine annotate_preserves fs _ _ us _ k rfl ?_
          intro kv hkv
          simp only [List.mem_cons, List.not_mem_nil, or_false] at hkv
          rcases hkv with h | h | h | h | h | h | h | h
          · subst h; exact Ne.symm h1
          · subst h; exact Ne.symm h2
          · subst h; exact Ne.symm h3
          · subst h; exact Ne.symm h4
          · subst h; exact Ne.symm h5
          · subst h; exact Ne.symm h6
          · subst h; exact Ne.symm h7
          · subst h; exact Ne.symm h8
      · -- merge failed
        simp only [hext, jsOr_obj, hU]
        refine annotate_preserves fs _ _ us _ k rfl ?_
        intro kv hkv
        simp only [List.mem_cons, List.not_mem_nil, or_false] at hkv
        rcases hkv with h | h | h
        · subst h; exact Ne.symm h1
        · subst h; exact Ne.symm h2
        · subst h; exact Ne.symm h8
    · -- no RV URL derived
      simp only [hext, jsOr_obj, hU]
      refine annotate_preserves fs _ _ us _ k rfl ?_
      intro kv hkv
      simp only [List.mem_cons, List.not_mem_nil, or_false] at hkv
      rcases hkv with h | h
      · subst h; exact Ne.symm h1
      · subst h; exact Ne.symm h8
  · rw [if_neg hcond, hext, hU]

theorem getF_obj_setAssoc_same (gs : List (String × JVal)) (k : String) (x : JVal) :
    getF (.obj (setAssoc gs k x)) k = x := by
  simp [getF, find_setAssoc_same]

theorem getF_obj_setAssoc_ne (gs : List (String × JVal)) (k k2 : String) (h : k2 ≠ k) (x : JVal) :
    getF (.obj (setAssoc gs k x)) k2 = getF (.obj gs) k2 := by
  simp only [getF, find_setAssoc_ne k k2 h]

/-- STEP A is a no-op on markup without the "<Wrapper" substring. -/
theorem processBidStepA_noWrapper (uO : String → Except String UnwrapRet) (b : JVal)
    (h : strIncludes (strOf (getF b "adm")) "<Wrapper" = false) :
    processBidStepA uO b = b := by
  simp only [processBidStepA, h, Bool.false_eq_true, if_false]

/-- A failing RV fetch/merge is caught and annotated with
`rv-fetch-or-merge-failed`, leaving the markup untouched. -/
theorem processBidStepB_merge_failed (mO : String → String → Except String (String × JVal))
    (dv : String → Option String) (fs : List (String × JVal)) (rvUrl : String)
    (hcond : truthy (getF (.obj fs) "nurl") ∧ isStrJ (getF (.obj fs) "adm")
        ∧ strIncludes (strOf (getF (.obj fs) "adm")) "<InLine")
    (hdv : dv (toStr (getF (.obj fs) "nurl")) = some rvUrl)
    (hmo : ∃ e, mO (strOf (getF (.obj fs) "adm")) rvUrl = .error e) :
    getF (getF (getF (processBidStepB mO dv (.obj fs)) "ext") "unwrap") "reason"
        = .str "rv-fetch-or-merge-failed"
    ∧ getF (getF (getF (processBidStepB mO dv (.obj fs)) "ext") "unwrap") "mergedWrapperImps"
        = .bool false
    ∧ getF (processBidStepB mO dv (.obj fs)) "adm" = getF (.obj fs) "adm" := by
  obtain ⟨e, he⟩ := hmo
  unfold processBidStepB
  rw [if_pos hcond]
  simp only [hdv, he]
  simp only [objLit, List.foldl_cons, List.foldl_nil, setField_is_obj]
  refine ⟨?_, ?_, ?_⟩
  · rw [getF_obj_setAssoc_same, getF_obj_setAssoc_same, getF_obj_setAssoc_same]
  · rw [getF_obj_setAssoc_same, getF_obj_setAssoc_same,
      getF_obj_setAssoc_ne _ _ _ (by decide), getF_obj_setAssoc_ne _ _ _ (by decide),
      getF_obj_setAssoc_same]
  · rw [getF_obj_setAssoc_ne _ _ _ (by decide)]

theorem mergeImpressions_preserves (impDedup : Bool) (w i : JVal) (k : String)
    (hk : k ≠ "Impression") :
    getF (mergeImpressions impDedup w i) k = getF i k := by
  simp only [mergeImpressions]
  split <;> split <;>
    first
    | exact getF_setField_ne i "Impression" k hk _
    | rfl

set_option maxHeartbeats 2000000 in
theorem mergeAdNodes_preserves (impDedup : Bool) (w i : JVal) (k : String)
    (h1 : k ≠ "Impression") (h2 : k ≠ "Creatives") (h3 : k ≠ "AdVerifications")
    (h4 : k ≠ "ViewableImpression") :
    getF (mergeAdNodes impDedup w i) k = getF i k := by
  simp only [mergeAdNodes]
  simp only [apply_ite (fun v => getF v k), getF_setField_ne _ _ _ h2,
    getF_setField_ne _ _ _ h3, getF_setField_ne _ _ _ h4,
    mergeImpressions_preserves _ _ _ _ h1, ite_self]

/-- An inline VAST document in the canonical parsed shape, with the given
Tracking entries and an arbitrary `VideoClicks` value `vc` on its Linear. -/
def mkLinear (vc : JVal) (trk : List JVal) : JVal :=
  .obj [("TrackingEvents", .obj [("Tracking", .arr trk)]), ("VideoClicks", vc)]

/-- Inline document wrapping `mkLinear`. -/
def mkInlineDocTE (vc : JVal) (iTrk : List JVal) : JVal :=
  .obj [("VAST", .obj [("Ad", .obj [("InLine",
    .obj [("Creatives", .obj [("Creative", .obj [("Linear", mkLinear vc iTrk)])])]
  )])])]

/-- A wrapper VAST document in the canonical parsed shape, with the given
Tracking entries and arbitrary `Error` and `VideoClicks` values. -/
def mkWrapperDocTE (err wvc : JVal) (wTrk : List JVal) : JVal :=
  .obj [("VAST", .obj [("Ad", .obj [("Wrapper",
    .obj [("VASTAdTagURI", .str "https://next/"), ("Error", err),
          ("Creatives", .obj [("Creative", .obj [("Linear", mkLinear wvc wTrk)])])]
  )])])]

/-- The merged document the resolver produces for those two shapes. -/
def mkMergedDocTE (vc : JVal) (m : List JVal) : JVal :=
  .obj [("VAST", .obj [("Ad", .obj [("InLine",
    .obj [("Creatives", .arr [.obj [("Creative", .arr [.obj [("Linear",
      .arr [.obj [("TrackingEvents", .arr [.obj [("Tracking", .arr m)]]),
                  ("VideoClicks", vc)]]
    )]])]])]
  )])])]

/-- Projection to the merged Tracking list. -/
def trackingOf (doc : JVal) : JVal :=
  getF (idx0 (getF (idx0 (getF (idx0 (getF (idx0 (getF (getInline doc) "Creatives"))
    "Creative")) "Linear")) "TrackingEvents")) "Tracking"

/-- Projection to the merged document's VideoClicks value. -/
def videoClicksOf (doc : JVal) : JVal :=
  getF (idx0 (getF (idx0 (getF (idx0 (getF (getInline doc) "Creatives"))
    "Creative")) "Linear")) "VideoClicks"

set_option maxHeartbeats 2000000 in
theorem mergeTE_shape (impDedup : Bool) (err wvc vc : JVal) (iTrk wTrk : List JVal) :
    mergeWrapperIntoInline impDedup (mkWrapperDocTE err wvc wTrk) (mkInlineDocTE vc iTrk)
      = mkMergedDocTE vc (mergeUnique iTrk wTrk (some trkKey)) := by
  simp [mergeWrapperIntoInline, mergeAdNodes, mergeImpressions, normalizeImpressions,
    mkWrapperDocTE, mkInlineDocTE, mkMergedDocTE, mkLinear, getInline, getWrapper, getAd,
    getF, idx0, jsOr, truthy, toArr, nth0, setField, setAssoc, setInline, updIdx0val,
    mergeUnique, mergeUniqueStep, objLit, jsSpreadObj]

/-!
Claim theorems.  Each claim of the specification is settled by exactly one
theorem below (plus, where required, a witness or a counterexample).
-/

/-- Concrete `net.isIP` oracle: classifies the four address literals the
claims exercise; everything else (including hostnames) is not an IP. -/
def c1IsIP : String → Nat := fun s =>
  if s = "10.0.0.5" ∨ s = "127.0.0.1" ∨ s = "169.254.169.254" then 4
  else if s = "::1" then 6 else 0

/-- A wrapper document whose ad-tag URL points into private space. -/
def c1WrapDoc : JVal :=
  .obj [("VAST", .obj [("Ad", .obj [("Wrapper", .obj
    [("VASTAdTagURI", .str "http://10.0.0.5/x")])])])]

/-- The inline document served from the private address. -/
def c1InlineDoc : JVal :=
  .obj [("VAST", .obj [("Ad", .obj [("InLine", .obj [("#text", .str "creative")])])])]

/-- Fetch+parse oracle for the wrapper chain of C1. -/
def c1Net : String → JVal := fun s =>
  if s = "https://pub.example/vast" then c1WrapDoc
  else if s = "http://10.0.0.5/x" then c1InlineDoc
  else .null1

/-- C1: the claim states that every URL the program fetches — the upstream
bid endpoint, redirect targets, and every ad-tag URL followed during
wrapper-chain resolution — is validated (https scheme, no credentials, all
DNS-resolved addresses outside the private/loopback/link-local/CGNAT/
multicast/reserved ranges) before any request is issued.  The code
violates this twice.  (1) In the hardened endpoint validator, the IPv4
range checks compare a JavaScript signed 32-bit `&` result against an
unsigned hexadecimal literal, so every range whose leading octet is at
least 128 can never match: `isPrivateLikeIp` classifies the cloud-metadata
address 169.254.169.254 as public, contradicting the code's own
`169.254.0.0/16 link-local` comment, and `resolveAndCheckHost` accepts a
host resolving only to that address (while 10.0.0.5, 127.0.0.1 and ::1
are rejected as intended).  (2) The wrapper resolver performs no
validation at all: `resolveToInlineWithMeta` issues a fetch for the
plain-http, private-address ad-tag URL `http://10.0.0.5/x` found in a
wrapper (it appears in the fetch trace) and succeeds. -/
theorem c1_ssrf_validation_gaps :
    isPrivateLikeIp c1IsIP "10.0.0.5" = true
    ∧ isPrivateLikeIp c1IsIP "127.0.0.1" = true
    ∧ isPrivateLikeIp c1IsIP "::1" = true
    ∧ isPrivateLikeIp c1IsIP "169.254.169.254" = false
    ∧ resolveAndCheckHost c1IsIP (fun _ => ["127.0.0.1"]) (fun _ => []) "up.example"
        = .error (403, "Resolved IP is private/link-local/loopback/reserved.")
    ∧ resolveAndCheckHost c1IsIP (fun _ => ["169.254.169.254"]) (fun _ => []) "md.example"
        = .ok ["169.254.169.254"]
    ∧ resolveToInlineWithMeta c1Net (fun _ => "xml") false MAX_DEPTH (fun _ => none)
        "https://pub.example/vast"
        = .ok ⟨"xml", 1, "miss", some c1InlineDoc,
            ["https://pub.example/vast", "http://10.0.0.5/x"]⟩ := by
  refine ⟨by decide, by decide, by decide, by decide, by rfl, by rfl, by rfl⟩

/-- C10: when the wrapper-side document has no Wrapper node, or the target
document has no InLine node, `mergeWrapperIntoInline` returns the target
document unchanged in every field — a no-op guard, not an error. -/
theorem c10_merge_noop_guard (impDedup : Bool) (w i : JVal)
    (h : truthy (getWrapper w) = false ∨ truthy (getInline i) = false) :
    mergeWrapperIntoInline impDedup w i = i := by
  apply merge_guard
  rcases h with h | h
  · exact Or.inl (by simp [h])
  · exact Or.inr (by simp [h])

/-- Witness for C10: a document whose Ad has no Wrapper node merged into a
populated inline document leaves the inline document untouched. -/
theorem c10_merge_noop_guard_witness :
    mergeWrapperIntoInline false c1InlineDoc
      (.obj [("VAST", .obj [("Ad", .obj [("InLine", .obj
        [("Impression", .arr [.str "https://i/1", .str "https://i/1"])])])])])
      = .obj [("VAST", .obj [("Ad", .obj [("InLine", .obj
        [("Impression", .arr [.str "https://i/1", .str "https://i/1"])])])])] :=
  c10_merge_noop_guard false c1InlineDoc _ (Or.inl (by decide))

/-- C8: `unwrapAdmIfWrapper` passes its input through unchanged — with
`replaced = false`, `depth = 0`, `cached = "miss"` and, in particular, an
empty fetch trace (no network request) — whenever the markup is not a
string, lacks the substring "<Wrapper", or parses to a wrapper document
without a truthy `VASTAdTagURI` value. -/
theorem c8_unwrap_guards (net : String → JVal) (build : JVal → String)
    (parse : String → JVal) (impDedup : Bool) (maxDepth : Nat)
    (cache : String → Option String) (adm : JVal)
    (h : isStrJ adm = false
       ∨ strIncludes (strOf adm) "<Wrapper" = false
       ∨ (truthy (getWrapper (parse (strOf adm))) = true
          ∧ truthy (getVastAdTagUri (parse (strOf adm))) = false)) :
    unwrapAdmIfWrapper net build parse impDedup maxDepth cache adm
      = .ok ⟨adm, false, 0, "miss", []⟩ := by
  unfold unwrapAdmIfWrapper
  rcases h with h | h | h
  · rw [if_pos (Or.inl (by simp [h]))]
  · rw [if_pos (Or.inr (by simp [h]))]
  · by_cases hg : (¬ isStrJ adm ∨ ¬ strIncludes (strOf adm) "<Wrapper")
    · rw [if_pos hg]
    · rw [if_neg hg, if_pos (by simp [h.2])]

/-- Witness for C8: concrete wrapper markup whose parse tree carries a
Wrapper node but no `VASTAdTagURI`; the unwrap helper returns it unchanged
and fetches nothing. -/
theorem c8_unwrap_guards_witness :
    unwrapAdmIfWrapper (fun _ => .null1) (fun _ => "") (fun s =>
        if s = "<VAST><Ad><Wrapper></Wrapper></Ad></VAST>" then
          .obj [("VAST", .obj [("Ad", .obj [("Wrapper", .obj [])])])]
        else .null1)
      false MAX_DEPTH (fun _ => none) (.str "<VAST><Ad><Wrapper></Wrapper></Ad></VAST>")
      = .ok ⟨.str "<VAST><Ad><Wrapper></Wrapper></Ad></VAST>", false, 0, "miss", []⟩ :=
  c8_unwrap_guards _ _ _ false MAX_DEPTH _ _ (Or.inr (Or.inr (by decide)))

theorem trackingOf_merged (vc : JVal) (m : List JVal) :
    trackingOf (mkMergedDocTE vc m) = .arr m := rfl

theorem videoClicksOf_merged (vc : JVal) (m : List JVal) :
    videoClicksOf (mkMergedDocTE vc m) = vc := rfl

/-- Tracking entry fixtures for the `[A,B] + [B,C] = [A,B,C]` instance. -/
def trkA : JVal := .obj [("event", .str "start"), ("#text", .str "https://t/A")]

/-- Tracking entry B (shared by the inline and wrapper sides). -/
def trkB : JVal := .obj [("event", .str "firstQuartile"), ("#text", .str "https://t/B")]

/-- Tracking entry C (wrapper only). -/
def trkC : JVal := .obj [("event", .str "complete"), ("#text", .str "https://t/C")]

/-- C5: for every merge of a wrapper level into the inline document (in
the canonical parsed shape), the merged TrackingEvents list is the inline
entries followed by the wrapper entries, de-duplicated by the key
event-type plus URL text with the first occurrence kept; the result is
independent of the impression-dedup toggle; and in particular inline
`[A,B]` merged with wrapper `[B,C]` yields exactly `[A,B,C]`. -/
theorem c5_tracking_merge_order :
    (∀ (impDedup : Bool) (err wvc vc : JVal) (iTrk wTrk : List JVal),
       trackingOf (mergeWrapperIntoInline impDedup (mkWrapperDocTE err wvc wTrk)
         (mkInlineDocTE vc iTrk)) = .arr (dedupByFirst trkKey (iTrk ++ wTrk)))
    ∧ (∀ (err wvc vc : JVal) (iTrk wTrk : List JVal),
       mergeWrapperIntoInline true (mkWrapperDocTE err wvc wTrk) (mkInlineDocTE vc iTrk)
         = mergeWrapperIntoInline false (mkWrapperDocTE err wvc wTrk) (mkInlineDocTE vc iTrk))
    ∧ trackingOf (mergeWrapperIntoInline false (mkWrapperDocTE .null1 .null1 [trkB, trkC])
        (mkInlineDocTE .null1 [trkA, trkB])) = .arr [trkA, trkB, trkC] := by
  refine ⟨?_, ?_, ?_⟩
  · intro impDedup err wvc vc iTrk wTrk
    rw [mergeTE_shape, trackingOf_merged, mergeUnique_eq_dedupByFirst]
  · intro err wvc vc iTrk wTrk
    rw [mergeTE_shape, mergeTE_shape]
  · decide

/-- Counterexample for C4: the claim says `merge(wrapperAd, inlineAd)`
merges the wrapper's ClickTracking pixels and Error pixels into the inline
document (wrapper first, deduplicated by URL text).  In the current
resolver the merge does not touch either field: merging a wrapper that
declares an Error pixel and a ClickTracking pixel into an inline document
leaves the inline document without any Error entry and with exactly its
own ClickTracking; the wrapper's two pixels appear nowhere in the
result. -/
theorem c4_counterexample :
    getF (getInline (mergeWrapperIntoInline false
        (mkWrapperDocTE (.str "https://err/w") (.obj [("ClickTracking", .str "https://click/w")]) [])
        (mkInlineDocTE (.obj [("ClickTracking", .str "https://click/i")]) []))) "Error" = .null1
    ∧ videoClicksOf (mergeWrapperIntoInline false
        (mkWrapperDocTE (.str "https://err/w") (.obj [("ClickTracking", .str "https://click/w")]) [])
        (mkInlineDocTE (.obj [("ClickTracking", .str "https://click/i")]) []))
      = .obj [("ClickTracking", .str "https://click/i")] := by
  refine ⟨by decide, by decide⟩

/-- C4 (amended): the current merge engine merges neither ClickTracking
nor Error.  The inline node's `Error` field is preserved by every merge;
the merge result is entirely independent of the wrapper's `Error` value
and of the wrapper Linear's `VideoClicks`/ClickTracking; and the inline
Linear's `VideoClicks` (which carries its ClickTracking) comes through
unchanged.  (The wrapper-first, URL-deduplicated ClickTracking/Error merge
described by the claim exists only in the legacy resolver revision kept in
`src/unnamed/part_001`, which the current `src/lib/resolver.mjs` no longer
contains.) -/
theorem c4_amended_no_click_or_error_merge :
    (∀ (impDedup : Bool) (w i : JVal),
       getF (mergeAdNodes impDedup w i) "Error" = getF i "Error")
    ∧ (∀ (impDedup : Bool) (err err2 wvc vc : JVal) (iTrk wTrk : List JVal),
       mergeWrapperIntoInline impDedup (mkWrapperDocTE err wvc wTrk) (mkInlineDocTE vc iTrk)
         = mergeWrapperIntoInline impDedup (mkWrapperDocTE err2 .null1 wTrk)
             (mkInlineDocTE vc iTrk))
    ∧ (∀ (impDedup : Bool) (err wvc vc : JVal) (iTrk wTrk : List JVal),
       videoClicksOf (mergeWrapperIntoInline impDedup (mkWrapperDocTE err wvc wTrk)
         (mkInlineDocTE vc iTrk)) = vc) := by
  refine ⟨?_, ?_, ?_⟩
  · intro impDedup w i
    exact mergeAdNodes_preserves impDedup w i "Error"
      (by decide) (by decide) (by decide) (by decide)
  · intro impDedup err err2 wvc vc iTrk wTrk
    rw [mergeTE_shape, mergeTE_shape]
  · intro impDedup err wvc vc iTrk wTrk
    rw [mergeTE_shape, videoClicksOf_merged]

/-- C6: impression merging orders inline-native pixels first, then the
wrapper's (which are origin-tagged), and de-duplicates by exact URL text
only when the `IMP_DEDUP` toggle is on: for inline `[x]` and wrapper
`[x,y]` with distinct non-empty URLs, toggle OFF yields the three entries
`[x, x, y]` and toggle ON yields the two entries `[x, y]`. -/
theorem c6_impression_dedup_toggle (x y : String) (hx : x ≠ "") (hy : y ≠ "") (hxy : x ≠ y) :
    getF (mergeImpressions false (.obj [("Impression", .arr [.str x, .str y])])
        (.obj [("Impression", .arr [.str x])])) "Impression"
      = .arr [.obj [("#text", .str x)],
              .obj [("#text", .str x), ("data-origin", .str "wrapper")],
              .obj [("#text", .str y), ("data-origin", .str "wrapper")]]
    ∧ getF (mergeImpressions true (.obj [("Impression", .arr [.str x, .str y])])
        (.obj [("Impression", .arr [.str x])])) "Impression"
      = .arr [.obj [("#text", .str x)],
              .obj [("#text", .str y), ("data-origin", .str "wrapper")]] := by
  constructor
  · simp [mergeImpressions, normalizeImpressions, objLit, jsSpreadObj, setField, setAssoc,
      getF, jsOr, truthy, toArr, List.find?]
  · simp [mergeImpressions, normalizeImpressions, objLit, jsSpreadObj, setField, setAssoc,
      getF, jsOr, truthy, toArr, List.find?, impDedupStep_eq, impUrl, hx, hy, hxy, Ne.symm hxy]

/-- Witness for C6 at concrete URLs. -/
theorem c6_impression_dedup_toggle_witness :
    getF (mergeImpressions false
        (.obj [("Impression", .arr [.str "https://i/x", .str "https://w/y"])])
        (.obj [("Impression", .arr [.str "https://i/x"])])) "Impression"
      = .arr [.obj [("#text", .str "https://i/x")],
              .obj [("#text", .str "https://i/x"), ("data-origin", .str "wrapper")],
              .obj [("#text", .str "https://w/y"), ("data-origin", .str "wrapper")]]
    ∧ getF (mergeImpressions true
        (.obj [("Impression", .arr [.str "https://i/x", .str "https://w/y"])])
        (.obj [("Impression", .arr [.str "https://i/x"])])) "Impression"
      = .arr [.obj [("#text", .str "https://i/x")],
              .obj [("#text", .str "https://w/y"), ("data-origin", .str "wrapper")]] :=
  c6_impression_dedup_toggle "https://i/x" "https://w/y"
    (by decide) (by decide) (by decide)

/-- Counterexample for C3: the claim says no inline entry is ever deleted
by a merge, for all settings of the `IMP_DEDUP` toggle, "including inline
entries with duplicate or empty URLs".  With the toggle on, an inline
document carrying the same impression URL twice comes out of the merge
with a single entry: the second inline entry has been deleted. -/
theorem c3_counterexample :
    (toArr (getF (JVal.obj [("Impression",
        .arr [.str "https://t/p", .str "https://t/p"])]) "Impression")).length = 2
    ∧ getF (mergeImpressions true (.obj [])
        (.obj [("Impression", .arr [.str "https://t/p", .str "https://t/p"])])) "Impression"
      = .arr [.obj [("#text", .str "https://t/p")]] := by
  refine ⟨by decide, by decide⟩

theorem keepFirstByUrl_eq_impFilter (l : List JVal) : keepFirstByUrl l = impFilter [] l := by
  rw [impFilter_eq_keepFirst]
  simp

/-- C3 (amended): the merges only append in the deduplicated sense.  For
every `mergeUnique`-based field, the inline entries' first occurrences per
dedup key form a prefix of the merged list, in their original relative
order; with `IMP_DEDUP` off, all normalized inline impression entries form
a prefix of the written impression list; with `IMP_DEDUP` on, the inline
impressions that survive the URL dedup (first occurrence of each non-empty
URL — duplicate or empty-URL inline entries are dropped, see the
counterexample) form a prefix. -/
theorem c3_amended_inline_leading :
    (∀ (key : JVal → JVal) (a b : List JVal),
       ∃ r, mergeUnique a b (some key) = dedupByFirst key a ++ r)
    ∧ (∀ (w : JVal) (fs : List (String × JVal)),
       normalizeImpressions (getF (.obj fs) "Impression") ≠ [] →
       ∃ r, getF (mergeImpressions false w (.obj fs)) "Impression"
         = .arr (normalizeImpressions (getF (.obj fs) "Impression") ++ r))
    ∧ (∀ (w : JVal) (fs : List (String × JVal)),
       keepFirstByUrl (normalizeImpressions (getF (.obj fs) "Impression")) ≠ [] →
       ∃ r, getF (mergeImpressions true w (.obj fs)) "Impression"
         = .arr (keepFirstByUrl (normalizeImpressions (getF (.obj fs) "Impression")) ++ r)) := by
  refine ⟨mergeUnique_leading_part, ?_, ?_⟩
  · intro w fs hne
    refine ⟨(normalizeImpressions (getF w "Impression")).map
      (fun o => objLit o [("data-origin", .str "wrapper")]), ?_⟩
    simp only [mergeImpressions]
    rw [if_pos (by simp [hne]), getF_setField_same]
    simp
  · intro w fs hne
    rw [keepFirstByUrl_eq_impFilter] at hne ⊢
    obtain ⟨r, hr⟩ := impFilter_append
      (normalizeImpressions (getF (JVal.obj fs) "Impression")) []
      ((normalizeImpressions (getF w "Impression")).map
        (fun o => objLit o [("data-origin", .str "wrapper")]))
    refine ⟨r, ?_⟩
    simp only [mergeImpressions, impDedup_foldl, List.nil_append]
    rw [hr]
    rw [if_pos (by simp [hr]; intro hcon; rw [hcon] at hne; simp at hne)]
    rw [getF_setField_same]
    simp

/-- Witness for C3 at a concrete one-impression inline node. -/
theorem c3_amended_inline_leading_witness :
    (∃ r, getF (mergeImpressions false (.obj [])
        (.obj [("Impression", .arr [.str "https://a/1"])])) "Impression"
      = .arr (normalizeImpressions (getF (JVal.obj [("Impression",
          .arr [.str "https://a/1"])]) "Impression") ++ r))
    ∧ (∃ r, getF (mergeImpressions true (.obj [])
        (.obj [("Impression", .arr [.str "https://a/1"])])) "Impression"
      = .arr (keepFirstByUrl (normalizeImpressions (getF (JVal.obj [("Impression",
          .arr [.str "https://a/1"])]) "Impression")) ++ r)) :=
  ⟨c3_amended_inline_leading.2.1 (.obj []) _ (by decide),
   c3_amended_inline_leading.2.2 (.obj []) _ (by rw [keepFirstByUrl_eq_impFilter]; decide)⟩

/-- Counterexample fixtures for C2: a chain of nine wrapper documents and
no inline terminal. -/
def c2xDoc (k : Nat) : JVal :=
  .obj [("VAST", .obj [("Ad", .obj [("Wrapper", .obj
    [("VASTAdTagURI", .str ("https://chain/" ++ toString (k + 1)))])])])]

/-- Fetch+parse oracle for the nine-wrapper chain. -/
def c2xNet : String → JVal := fun s =>
  if s = "https://chain/0" then c2xDoc 0
  else if s = "https://chain/1" then c2xDoc 1
  else if s = "https://chain/2" then c2xDoc 2
  else if s = "https://chain/3" then c2xDoc 3
  else if s = "https://chain/4" then c2xDoc 4
  else if s = "https://chain/5" then c2xDoc 5
  else if s = "https://chain/6" then c2xDoc 6
  else if s = "https://chain/7" then c2xDoc 7
  else if s = "https://chain/8" then c2xDoc 8
  else .null1

/-- Counterexample for C2: the claim says a chain one hop longer than
`MAX_DEPTH` (its default is 8; here nine wrappers are served and no inline
is ever found) "fails with a depth/protocol error — it never loops
indefinitely and never returns a document in that case".  The run does
terminate, but it does not fail: `resolveToInlineWithMeta` returns
successfully, with `depth = MAX_DEPTH`, handing back the ninth wrapper
document (which has no InLine node) serialised as the result. -/
theorem c2_counterexample :
    resolveToInlineWithMeta c2xNet (fun _ => "xml") false MAX_DEPTH (fun _ => none)
        "https://chain/0"
      = .ok ⟨"xml", 8, "miss", some (c2xDoc 8),
          ["https://chain/0", "https://chain/1", "https://chain/2", "https://chain/3",
           "https://chain/4", "https://chain/5", "https://chain/6", "https://chain/7",
           "https://chain/8"]⟩
    ∧ truthy (getInline (c2xDoc 8)) = false := by
  refine ⟨by rfl, by decide⟩

/-- C2 (amended): on a fresh (cache-miss) resolution of a synthetic
wrapper chain, (a) when the terminal InLine document is reached exactly at
hop `MAX_DEPTH`, the resolver succeeds with `hopDepth = MAX_DEPTH`; and
(b) when the chain is one hop longer (`MAX_DEPTH` wrappers consumed and
the document fetched at hop `MAX_DEPTH` is again a wrapper), the resolver
still terminates and does not fail: it returns success with
`hopDepth = MAX_DEPTH` and hands back that final document unresolved (no
merge is applied to it).  The claim's failure behaviour does not exist in
the code; only its termination and exact-depth-success parts hold. -/
theorem c2_amended_depth_bound :
    (∀ (net : String → JVal) (build : JVal → String) (impDedup : Bool)
       (cache : String → Option String) (f : Nat → JVal) (u : Nat → String),
       cache ("rv:" ++ u 0) = none →
       (∀ k, k ≤ MAX_DEPTH → net (u k) = f k) →
       (∀ k, k < MAX_DEPTH → ¬ truthy (getInline (f k))) →
       (∀ k, k < MAX_DEPTH → getVastAdTagUri (f k) = .str (u (k + 1))) →
       (∀ k, k < MAX_DEPTH → u (k + 1) ≠ "") →
       truthy (getInline (f MAX_DEPTH)) = true →
       ∃ r, resolveToInlineWithMeta net build impDedup MAX_DEPTH cache (u 0) = .ok r ∧
         r.depth = MAX_DEPTH ∧ r.cached = "miss")
    ∧ (∀ (net : String → JVal) (build : JVal → String) (impDedup : Bool)
       (cache : String → Option String) (f : Nat → JVal) (u : Nat → String),
       cache ("rv:" ++ u 0) = none →
       (∀ k, k ≤ MAX_DEPTH → net (u k) = f k) →
       (∀ k, k < MAX_DEPTH → ¬ truthy (getInline (f k))) →
       (∀ k, k < MAX_DEPTH → getVastAdTagUri (f k) = .str (u (k + 1))) →
       (∀ k, k < MAX_DEPTH → u (k + 1) ≠ "") →
       truthy (getInline (f MAX_DEPTH)) = false →
       ∃ r, resolveToInlineWithMeta net build impDedup MAX_DEPTH cache (u 0) = .ok r ∧
         r.depth = MAX_DEPTH ∧ r.cached = "miss" ∧ r.finalDoc = some (f MAX_DEPTH)) := by
  constructor
  · intro net build impDedup cache f u h0 hnet hw ht hne _
    obtain ⟨r, hr, hd, hc, _⟩ := resolve_chain_exact net build impDedup cache f u h0 hnet hw ht hne
    exact ⟨r, hr, hd, hc⟩
  · intro net build impDedup cache f u h0 hnet hw ht hne hni
    obtain ⟨r, hr, hd, hc, hfin⟩ := resolve_chain_exact net build impDedup cache f u h0 hnet hw ht hne
    exact ⟨r, hr, hd, hc, hfin (by simp [hni])⟩

/-- Witness fixtures for C2, part (a): eight wrappers then an inline. -/
def c2aDoc (k : Nat) : JVal :=
  .obj [("VAST", .obj [("Ad", .obj [("Wrapper", .obj
    [("VASTAdTagURI", .str ("https://wa/" ++ toString (k + 1)))])])])]

/-- The terminal inline document of the part (a) chain. -/
def c2aInline : JVal :=
  .obj [("VAST", .obj [("Ad", .obj [("InLine", .obj [("#text", .str "creative")])])])]

/-- The part (a) chain as a function of the hop index. -/
def c2aF : Nat → JVal := fun k => if k < 8 then c2aDoc k else c2aInline

/-- Fetch+parse oracle for the part (a) chain. -/
def c2aNet : String → JVal := fun s =>
  if s = "https://wa/0" then c2aF 0
  else if s = "https://wa/1" then c2aF 1
  else if s = "https://wa/2" then c2aF 2
  else if s = "https://wa/3" then c2aF 3
  else if s = "https://wa/4" then c2aF 4
  else if s = "https://wa/5" then c2aF 5
  else if s = "https://wa/6" then c2aF 6
  else if s = "https://wa/7" then c2aF 7
  else if s = "https://wa/8" then c2aF 8
  else .null1

/-- Witness fixtures for C2, part (b): nine wrappers, no inline. -/
def c2bDoc (k : Nat) : JVal :=
  .obj [("VAST", .obj [("Ad", .obj [("Wrapper", .obj
    [("VASTAdTagURI", .str ("https://wb/" ++ toString (k + 1)))])])])]

/-- Fetch+parse oracle for the part (b) chain. -/
def c2bNet : String → JVal := fun s =>
  if s = "https://wb/0" then c2bDoc 0
  else if s = "https://wb/1" then c2bDoc 1
  else if s = "https://wb/2" then c2bDoc 2
  else if s = "https://wb/3" then c2bDoc 3
  else if s = "https://wb/4" then c2bDoc 4
  else if s = "https://wb/5" then c2bDoc 5
  else if s = "https://wb/6" then c2bDoc 6
  else if s = "https://wb/7" then c2bDoc 7
  else if s = "https://wb/8" then c2bDoc 8
  else .null1

/-- Witness for C2, applying the amended theorem to the two concrete
chains. -/
theorem c2_amended_depth_bound_witness :
    (∃ r, resolveToInlineWithMeta c2aNet (fun _ => "xml") false MAX_DEPTH (fun _ => none)
        ("https://wa/" ++ toString 0) = .ok r ∧ r.depth = MAX_DEPTH ∧ r.cached = "miss")
    ∧ (∃ r, resolveToInlineWithMeta c2bNet (fun _ => "xml") false MAX_DEPTH (fun _ => none)
        ("https://wb/" ++ toString 0) = .ok r ∧ r.depth = MAX_DEPTH ∧ r.cached = "miss"
        ∧ r.finalDoc = some (c2bDoc MAX_DEPTH)) :=
  ⟨c2_amended_depth_bound.1 c2aNet (fun _ => "xml") false (fun _ => none)
      c2aF (fun k => "https://wa/" ++ toString k)
      (by rfl) (by decide) (by decide) (by decide) (by decide) (by decide),
   c2_amended_depth_bound.2 c2bNet (fun _ => "xml") false (fun _ => none)
      c2bDoc (fun k => "https://wb/" ++ toString k)
      (by rfl) (by decide) (by decide) (by decide) (by decide) (by decide)⟩

/-- C7: per-bid failure containment in the current OpenRTB handler.
(1) The HTTP status returned to the caller always equals the upstream
response status, on every post-upstream path.  (2) On the JSON path every
seatbid entry is processed, each independently of its siblings (the output
is a per-entry map).  (3) Within a seatbid, every bid is processed by the
same per-bid function, again as a map.  (4) A thrown unwrap failure for a
bid is caught and recorded in that bid's `ext.unwrap` annotation as
`error = "unwrap-failed"`, whatever else the bid goes through afterwards.
(5) A failing RV impression fetch/merge is likewise caught and recorded as
`reason = "rv-fetch-or-merge-failed"`, leaving the bid's markup intact. -/
theorem c7_per_bid_isolation :
    (∀ (uO : String → Except String UnwrapRet)
       (mO : String → String → Except String (String × JVal)) (dv : String → Option String)
       (p : String → Option JVal) (status : Nat) (ct body : String),
       (handlerAfterUpstream uO mO dv p status ct body).1 = status)
    ∧ (∀ (uO : String → Except String UnwrapRet)
       (mO : String → String → Except String (String × JVal)) (dv : String → Option String)
       (p : String → Option JVal) (status : Nat) (ct body : String) (resp : JVal)
       (sbs : List JVal),
       strIncludes ct "json" = true → p body = some resp →
       getF resp "seatbid" = .arr sbs →
       (handlerAfterUpstream uO mO dv p status ct body).2
         = .inr (setField resp "seatbid" (.arr (sbs.map (processSeatbid uO mO dv)))))
    ∧ (∀ (uO : String → Except String UnwrapRet)
       (mO : String → String → Except String (String × JVal)) (dv : String → Option String)
       (sb : JVal) (bids : List JVal),
       getF sb "bid" = .arr bids →
       processSeatbid uO mO dv sb = setField sb "bid" (.arr (bids.map (processBid uO mO dv))))
    ∧ (∀ (uO : String → Except String UnwrapRet)
       (mO : String → String → Except String (String × JVal)) (dv : String → Option String)
       (fs : List (String × JVal)) (adm e : String),
       getF (.obj fs) "adm" = .str adm → strIncludes adm "<Wrapper" = true →
       uO adm = .error e →
       getF (getF (getF (processBid uO mO dv (.obj fs)) "ext") "unwrap") "error"
         = .str "unwrap-failed")
    ∧ (∀ (uO : String → Except String UnwrapRet)
       (mO : String → String → Except String (String × JVal)) (dv : String → Option String)
       (fs : List (String × JVal)) (adm rvUrl : String),
       getF (.obj fs) "adm" = .str adm → strIncludes adm "<Wrapper" = false →
       truthy (getF (.obj fs) "nurl") = true → strIncludes adm "<InLine" = true →
       dv (toStr (getF (.obj fs) "nurl")) = some rvUrl → (∃ e, mO adm rvUrl = .error e) →
       getF (getF (getF (processBid uO mO dv (.obj fs)) "ext") "unwrap") "reason"
           = .str "rv-fetch-or-merge-failed"
         ∧ getF (processBid uO mO dv (.obj fs)) "adm" = .str adm) := by
  refine ⟨?_, ?_, ?_, ?_, ?_⟩
  · intro uO mO dv p status ct body
    unfold handlerAfterUpstream
    split
    · rfl
    · split <;> rfl
  · intro uO mO dv p status ct body resp sbs hct hparse hsb
    unfold handlerAfterUpstream
    rw [if_neg (by simp [hct])]
    simp only [hparse]
    unfold handlerProcess
    simp only [hsb]
  · intro uO mO dv sb bids hbid
    unfold processSeatbid
    simp only [hbid]
  · intro uO mO dv fs adm e hadm hwrap herr
    unfold processBid
    rw [if_neg (by simp [hadm, isStrJ])]
    rw [show processBidStepA uO (.obj fs) = _ from
      processBidStepA_error uO (.obj fs) adm e (by rw [hadm]) hwrap herr]
    simp only [objLit, List.foldl_cons, List.foldl_nil, setField_is_obj]
    rw [processBidStepB_preserves_unwrap mO dv _ _ _ "error"
      (getF_obj_setAssoc_same _ _ _) (getF_obj_setAssoc_same _ _ _)
      (by refine ⟨?_, ?_, ?_, ?_, ?_, ?_, ?_, ?_⟩ <;> decide)]
    decide
  · intro uO mO dv fs adm rvUrl hadm hnowrap hnurl hinline hdv hmo
    unfold processBid
    rw [if_neg (by simp [hadm, isStrJ])]
    rw [processBidStepA_noWrapper uO (.obj fs) (by rw [hadm]; exact hnowrap)]
    have hres := processBidStepB_merge_failed mO dv fs rvUrl
      ⟨hnurl, by rw [hadm]; rfl, by rw [hadm]; exact hinline⟩ hdv
      (by obtain ⟨e, he⟩ := hmo; exact ⟨e, by rw [hadm]; exact he⟩)
    exact ⟨hres.1, by rw [hres.2.2, hadm]⟩

/-- Wrapper markup for the C7 witness. -/
def c7AdmW : String := "<VAST><Ad><Wrapper><VASTAdTagURI>u</VASTAdTagURI></Wrapper></Ad></VAST>"

/-- Inline markup for the C7 witness. -/
def c7AdmI : String := "<VAST><Ad><InLine>x</InLine></Ad></VAST>"

/-- Bid carrying the wrapper markup. -/
def c7BidW : JVal := .obj [("adm", .str c7AdmW)]

/-- Bid carrying the inline markup and a notification URL. -/
def c7BidI : JVal := .obj [("adm", .str c7AdmI), ("nurl", .str "https://n/1")]

/-- A seatbid entry holding both bids. -/
def c7Sb : JVal := .obj [("bid", .arr [c7BidW, c7BidI])]

/-- The parsed upstream bid response. -/
def c7Resp : JVal := .obj [("seatbid", .arr [c7Sb])]

/-- Failing oracles: unwrapping always throws, merging always fails. -/
def c7UO : String → Except String UnwrapRet := fun _ => .error "boom"

/-- The failing merge oracle of the witness. -/
def c7MO : String → String → Except String (String × JVal) := fun _ _ => .error "mergeboom"

/-- Derivation oracle of the witness. -/
def c7Dv : String → Option String := fun _ => some "https://rv/1"

/-- JSON-parse oracle of the witness. -/
def c7Parse : String → Option JVal := fun s => if s = "BODY" then some c7Resp else none

/-- Witness for C7: even with every unwrap throwing and every merge
failing, the handler passes through the upstream status 207, processes
both bids of the seatbid, annotates the wrapper bid with `unwrap-failed`
and the inline bid with `rv-fetch-or-merge-failed`, keeping the inline
bid's markup intact. -/
theorem c7_per_bid_isolation_witness :
    (handlerAfterUpstream c7UO c7MO c7Dv c7Parse 207 "application/json" "BODY").1 = 207
    ∧ (handlerAfterUpstream c7UO c7MO c7Dv c7Parse 207 "application/json" "BODY").2
        = .inr (setField c7Resp "seatbid" (.arr ([c7Sb].map (processSeatbid c7UO c7MO c7Dv))))
    ∧ processSeatbid c7UO c7MO c7Dv c7Sb
        = setField c7Sb "bid" (.arr ([c7BidW, c7BidI].map (processBid c7UO c7MO c7Dv)))
    ∧ getF (getF (getF (processBid c7UO c7MO c7Dv c7BidW) "ext") "unwrap") "error"
        = .str "unwrap-failed"
    ∧ (getF (getF (getF (processBid c7UO c7MO c7Dv c7BidI) "ext") "unwrap") "reason"
        = .str "rv-fetch-or-merge-failed"
       ∧ getF (processBid c7UO c7MO c7Dv c7BidI) "adm" = .str c7AdmI) :=
  ⟨c7_per_bid_isolation.1 c7UO c7MO c7Dv c7Parse 207 "application/json" "BODY",
   c7_per_bid_isolation.2.1 c7UO c7MO c7Dv c7Parse 207 "application/json" "BODY" c7Resp [c7Sb]
     (by decide) (by rfl) (by rfl),
   c7_per_bid_isolation.2.2.1 c7UO c7MO c7Dv c7Sb [c7BidW, c7BidI] (by rfl),
   c7_per_bid_isolation.2.2.2.1 c7UO c7MO c7Dv [("adm", .str c7AdmW)] c7AdmW "boom"
     (by rfl) (by decide) (by rfl),
   c7_per_bid_isolation.2.2.2.2 c7UO c7MO c7Dv
     [("adm", .str c7AdmI), ("nurl", .str "https://n/1")] c7AdmI "https://rv/1"
     (by rfl) (by decide) (by decide) (by decide) (by rfl) ⟨"mergeboom", by rfl⟩⟩

/-- The pieces of a parsed URL that `deriveEquativRvUrlFromNurl` reads:
`host` and the query parameters (`searchParams`, first value per key). -/
structure JsURLQ where
  host : String
  search : List (String × String)
deriving DecidableEq

/-- `searchParams.get(k)`: the first value for `k`, `null` when absent. -/
def searchGet (ps : List (String × String)) (k : String) : Option String :=
  (ps.find? (fun p => p.1 = k)).map (fun p => p.2)

/-- `deriveEquativRvUrlFromNurl(nurl)` of the current OpenRTB handler
(`src/unnamed/part_006`): parse the nurl (`urlQ`, `none` when the URL
constructor throws), strip a leading "ssb-" from the host, read the
`bidid` and `bidnwid` query parameters, and return the RV endpoint, or
`null` when either parameter is absent or empty; `enc` is
`encodeURIComponent`. -/
def deriveEquativRvUrlFromNurl (urlQ : String → Option JsURLQ) (enc : String → String)
    (nurl : String) : Option String :=
  match urlQ nurl with
  | none => none
  | some u =>
      let host := if jsStartsWith u.host "ssb-" then String.mk (u.host.data.drop 4) else u.host
      let vastid := (searchGet u.search "bidid").getD ""
      let networkId := (searchGet u.search "bidnwid").getD ""
      if vastid = "" ∨ networkId = "" then none
      else some ("https://" ++ host ++ "/rv?vastid=" ++ enc vastid
        ++ "&networkId=" ++ enc networkId)

/-- `mergeWrapperImpressionsIntoInlineXml(inlineAdmXml, wrapperUrl)` of the
resolver: parse the target markup, fetch and parse the RV document (`respOk`
is `resp.ok`, a `false` throws, `respText` the body text), pick its Wrapper
node or, failing that, its InLine node as the merge source, and merge only
Impressions into the target's InLine node — when the target has no InLine
node (or the source has neither node) nothing is merged and the document is
returned as parsed; the returned `xml` is always the `builder.build` of the
(possibly unchanged) parsed tree, alongside the stats object (the
debug-only `wrapperSnippet` field is omitted). -/
def mergeWrapperImpressionsIntoInlineXml (parse : String → JVal) (build : JVal → String)
    (respOk : String → Bool) (respText : String → String) (impDedup : Bool)
    (inlineAdmXml wrapperUrl : String) : Except String (String × JVal) :=
  let inlineDoc := parse inlineAdmXml
  if respOk wrapperUrl = false then .error "Wrapper fetch failed"
  else
    let wrapperDoc := parse (respText wrapperUrl)
    let sourceWrapper := getWrapper wrapperDoc
    let sourceInline := getInline wrapperDoc
    let sourceNode := jsOr sourceWrapper (jsOr sourceInline .null1)
    let targetInline := getInline inlineDoc
    let rvImpCount := (normalizeImpressions (getF sourceNode "Impression")).length
    let targetImpBefore := (normalizeImpressions (getF targetInline "Impression")).length
    let mergedDoc :=
      if truthy sourceNode && truthy targetInline
      then setInline inlineDoc (mergeImpressions impDedup sourceNode targetInline)
      else inlineDoc
    let targetImpAfter :=
      (normalizeImpressions (getF (getInline mergedDoc) "Impression")).length
    .ok (build mergedDoc,
      .obj [("rvHasWrapper", .bool (truthy sourceWrapper)),
            ("rvHasInline", .bool (truthy sourceInline)),
            ("rvImpCount", .num (rvImpCount : Int)),
            ("targetImpBefore", .num (targetImpBefore : Int)),
            ("targetImpAfter", .num (targetImpAfter : Int))])

/-- Markup that is a Wrapper but also contains the text "<InLine" inside
its ad-tag CDATA — a legitimate VAST possibility. -/
def c9Adm : String :=
  "<VAST><Ad><Wrapper><VASTAdTagURI><![CDATA[https://x/?q=<InLine]]></VASTAdTagURI></Wrapper></Ad></VAST>"

/-- The parse of `c9Adm`: `fast-xml-parser` merges the CDATA section into
the element text and collapses a text-only element to its string. -/
def c9AdmDoc : JVal :=
  .obj [("VAST", .obj [("Ad", .obj [("Wrapper",
    .obj [("VASTAdTagURI", .str "https://x/?q=<InLine")])])])]

/-- The `builder.build` of `c9AdmDoc`: the ad-tag value is a plain string
(the CDATA marker was lost in parsing), so the builder serialises it as
escaped text — the round-tripped markup differs from `c9Adm`. -/
def c9RoundTrip : String :=
  "<VAST><Ad><Wrapper><VASTAdTagURI>https://x/?q=&lt;InLine</VASTAdTagURI></Wrapper></Ad></VAST>"

/-- An Equativ bid-notification URL carrying `bidid` and `bidnwid`, so the
RV derivation succeeds on it. -/
def c9Nurl : String := "https://ssb-use1.smartadserver.com/h?bidid=7&bidnwid=2"

/-- The URL-constructor oracle at the one point it is evaluated: the
evident parse of `c9Nurl`. -/
def c9UrlQ : String → Option JsURLQ := fun s =>
  if s = c9Nurl
  then some ⟨"ssb-use1.smartadserver.com", [("bidid", "7"), ("bidnwid", "2")]⟩
  else none

/-- `encodeURIComponent`, which is the identity on the digit strings it is
evaluated at here. -/
def c9Enc : String → String := fun s => s

/-- The handler's RV derivation, at the concrete URL oracles. -/
def c9Dv : String → Option String := deriveEquativRvUrlFromNurl c9UrlQ c9Enc

/-- The RV endpoint `c9Dv` derives from `c9Nurl`. -/
def c9RvUrl : String := "https://use1.smartadserver.com/rv?vastid=7&networkId=2"

/-- The RV document text fetched from `c9RvUrl`. -/
def c9RvText : String :=
  "<VAST><Ad><Wrapper><Impression><![CDATA[https://rv-imp/1]]></Impression></Wrapper></Ad></VAST>"

/-- The parse of `c9RvText`. -/
def c9RvDoc : JVal :=
  .obj [("VAST", .obj [("Ad", .obj [("Wrapper", .obj [("Impression", .str "https://rv-imp/1")])])])]

/-- The XML-parse oracle at the two texts it is evaluated at. -/
def c9ParseO : String → JVal := fun s =>
  if s = c9Adm then c9AdmDoc else if s = c9RvText then c9RvDoc else .null1

/-- The XML-build oracle at the one tree it is evaluated at. -/
def c9BuildO : JVal → String := fun d => if d = c9AdmDoc then c9RoundTrip else ""

/-- The RV fetch succeeds. -/
def c9RespOk : String → Bool := fun u => u = c9RvUrl

/-- The RV fetch body. -/
def c9RespText : String → String := fun _ => c9RvText

/-- The real merge helper, at the concrete parse/build/fetch oracles, with
`IMP_DEDUP` off. -/
def c9MO : String → String → Except String (String × JVal) :=
  mergeWrapperImpressionsIntoInlineXml c9ParseO c9BuildO c9RespOk c9RespText false

/-- Unwrap oracle that throws, as `unwrapAdmIfWrapper` does when the chain
behind `c9Adm`'s ad-tag URL reaches a wrapper without a `VASTAdTagURI`. -/
def c9UO : String → Except String UnwrapRet := fun _ => .error "Wrapper missing <VASTAdTagURI>."

/-- The C9 counterexample bid. -/
def c9Bid : JVal := .obj [("adm", .str c9Adm), ("nurl", .str c9Nurl)]

/-- Counterexample for C9: the claim says that when resolving a bid's
wrapper markup throws, the handler leaves that bid's `adm` exactly as
received.  Here the unwrap throws (and `unwrap-failed` is duly recorded),
but the bid also carries a derivable Equativ `nurl` and its markup contains
the text "<InLine" inside the ad-tag CDATA, so STEP B still runs: the merge
helper, finding no InLine node in the Wrapper-markup target, merges nothing
but returns the parse→build round trip of the markup, in which the CDATA
section has become escaped text; that differs from the received string, so
the handler writes it back — the final `adm` is not the received one. -/
theorem c9_counterexample :
    strIncludes c9Adm "<Wrapper" = true
    ∧ (∃ e, c9UO c9Adm = .error e)
    ∧ c9Dv c9Nurl = some c9RvUrl
    ∧ getF (processBid c9UO c9MO c9Dv c9Bid) "adm" = .str c9RoundTrip
    ∧ getF (processBid c9UO c9MO c9Dv c9Bid) "adm" ≠ getF c9Bid "adm"
    ∧ getF (getF (getF (processBid c9UO c9MO c9Dv c9Bid) "ext") "unwrap") "error"
        = .str "unwrap-failed" := by
  refine ⟨by decide, ⟨"Wrapper missing <VASTAdTagURI>.", rfl⟩, by rfl, by rfl, by decide, by rfl⟩

/-- C9 (amended): when resolving a bid's wrapper markup throws, the
handler sets the bid's `ext.unwrap` annotation to exactly
`depth -1, cached "n/a", error "unwrap-failed"`, and leaves the bid's
`adm` exactly as received — provided the bid does not additionally enter
the RV-merge step (that is, it has no truthy `nurl` or its markup does not
contain "<InLine"); a bid that does enter that step keeps the failure
annotation fields but may still have its `adm` replaced by the RV merge
(see the counterexample). -/
theorem c9_amended_unwrap_failure_annotation (uO : String → Except String UnwrapRet)
    (mO : String → String → Except String (String × JVal)) (dv : String → Option String)
    (fs : List (String × JVal)) (adm e : String)
    (hadm : getF (.obj fs) "adm" = .str adm)
    (hwrap : strIncludes adm "<Wrapper" = true)
    (herr : uO adm = .error e)
    (hnoB : ¬ (truthy (getF (.obj fs) "nurl") = true ∧ strIncludes adm "<InLine" = true)) :
    getF (processBid uO mO dv (.obj fs)) "adm" = .str adm
    ∧ getF (getF (processBid uO mO dv (.obj fs)) "ext") "unwrap"
      = .obj [("depth", .num (-1)), ("cached", .str "n/a"), ("error", .str "unwrap-failed")] := by
  unfold processBid
  rw [if_neg (by simp [hadm, isStrJ])]
  rw [show processBidStepA uO (.obj fs) = _ from
    processBidStepA_error uO (.obj fs) adm e (by rw [hadm]) hwrap herr]
  simp only [objLit, List.foldl_cons, List.foldl_nil, setField_is_obj]
  rw [processBidStepB_skip]
  · refine ⟨?_, ?_⟩
    · rw [getF_obj_setAssoc_ne _ _ _ (by decide), hadm]
    · rw [getF_obj_setAssoc_same, getF_obj_setAssoc_same]
  · rintro ⟨hn, hs, hi⟩
    apply hnoB
    rw [getF_obj_setAssoc_ne _ _ _ (by decide)] at hn
    rw [getF_obj_setAssoc_ne _ _ _ (by decide), hadm] at hi
    exact ⟨hn, hi⟩

/-- Witness for the amended C9, on a wrapper bid without a `nurl`. -/
theorem c9_amended_unwrap_failure_annotation_witness :
    getF (processBid c9UO c9MO c9Dv (.obj [("adm", .str c7AdmW)])) "adm" = .str c7AdmW
    ∧ getF (getF (processBid c9UO c9MO c9Dv (.obj [("adm", .str c7AdmW)])) "ext") "unwrap"
      = .obj [("depth", .num (-1)), ("cached", .str "n/a"), ("error", .str "unwrap-failed")] :=
  c9_amended_unwrap_failure_annotation c9UO c9MO c9Dv [("adm", .str c7AdmW)] c7AdmW
    "Wrapper missing <VASTAdTagURI>." (by rfl) (by decide) (by rfl)
    (by rintro ⟨hn, _⟩; exact absurd hn (by decide))
